import Mathlib

/-!
Verification development for the go-secoap codec core.

Bytes are modelled as natural numbers (values kept below 256 by the
operations that produce them), byte strings as `List Nat`, Go's `int32` /
`int16` / `int8` fields as `Int`, and fallible operations as `Except` /
explicit result types.  Each definition mirrors one Go function of the
repository; the few list-level option-codec functions whose source file is
absent are modelled from the specification and marked as such in their
doc comments.
-/

/-- Error values of the codec, mirroring `secoapcore/errors.go` together
with the `fmt.Errorf` validation errors of the coders and the string
errors of the legacy `secoap` package. -/
inductive Err where
  | tooSmall
  | invalidTokenLen
  | optionTruncated
  | optionUnexpectedExtendMarker
  | optionsTooSmall
  | messageTruncated
  | messageInvalidVersion
  | messageInvalidRSUM8
  | invalidRCRC16
  | invalidMessageID
  | invalidType
  | invalidEncoderID
  | invalidEncoderType
  | shortPacket
  | invalidVersion
  | truncated
  | unexpectedExtendMarker
  | unrecognizedOption
  deriving DecidableEq, Repr

/-- One round of the CRC16-MODBUS bit loop: shift right, conditionally
xor with the reflected polynomial 0xA001. -/
def crc16Round (crc : Nat) : Nat :=
  if crc % 2 == 1 then (crc / 2) ^^^ 0xA001 else crc / 2

/-- Absorb one byte into the CRC16-MODBUS state: xor the byte in, then
run eight bit rounds. -/
def crc16Byte (crc b : Nat) : Nat :=
  crc16Round^[8] (crc ^^^ b)

/-- CRC16Bytes from `secoapcore` (CRC16-MODBUS: reflected polynomial
0xA001, initial value 0xFFFF, no final xor), as computed by
`crc16BytesModbus` via the crc16 package. -/
def CRC16Bytes (data : List Nat) : Nat :=
  data.foldl crc16Byte 0xFFFF

/-- Sum of bitwise complements of all bytes of a list. -/
def invSum (data : List Nat) : Nat :=
  (data.map (fun b => 255 - b)).sum

/-- Modelled from the spec: `secoapcore.RSUM8` (its implementation file
is absent from the sources; only `rsum_test.go` is present).  The spec
defines it as the running sum of `~byte` over all bytes, modulo 256; the
frame is valid when the result is zero.  The definition reproduces every
vector of `rsum_test.go`. -/
def RSUM8 (data : List Nat) : Nat :=
  invSum data % 256

/-- RSUM8 reproduces the five expected values of `TestRSUM8` in
`secoapcore/rsum_test.go`. -/
theorem rsum8_matches_test_vectors :
    RSUM8 [0x00, 0x01, 0x02] = 0xFA ∧
    RSUM8 [0x00, 0x01, 0x02, 0x03] = 0xF6 ∧
    RSUM8 [0x00, 0x01, 0x02, 0x03, 0x04] = 0xF1 ∧
    RSUM8 [0x00, 0x01, 0x02, 0x03, 0x04, 0x05] = 0xEB ∧
    RSUM8 [0x00, 0x01, 0x02, 0x03, 0x04, 0x05, 0x06] = 0xE4 := by
  decide

def max1ByteNumber : Nat := 255
def max2ByteNumber : Nat := 65535
def max3ByteNumber : Nat := 0xffffff

/-- Bytes written by `secoapcore.EncodeUint32` when the buffer is large
enough: the minimal big-endian encoding (0 bytes for 0, up to 4 bytes).
The function's integer return value is the length of this list. -/
def encodeUint32Bytes (value : Nat) : List Nat :=
  if value == 0 then []
  else if value ≤ max1ByteNumber then [value]
  else if value ≤ max2ByteNumber then [value / 256, value % 256]
  else if value ≤ max3ByteNumber then
    [value / 65536 % 256, value / 256 % 256, value % 256]
  else
    [value / 16777216 % 256, value / 65536 % 256, value / 256 % 256, value % 256]

/-- Source `secoapcore.DecodeUint32`: truncate to at most 4 bytes, left-zero-pad
to 4 bytes, read big-endian; returns the value and the number of bytes
consumed (never an error). -/
def DecodeUint32 (buf : List Nat) : Nat × Nat :=
  let b := buf.take 4
  let tmp := List.replicate (4 - b.length) 0 ++ b
  (tmp.foldl (fun a x => a * 256 + x) 0, b.length)

/-- Option value formats of RFC7252 section 3.2 (`ValueFormat` in
`message_option.go`; the same registry is shared by `secoapcore`). -/
inductive VFormat where
  | unknownFmt
  | emptyFmt
  | opaqFmt
  | uintFmt
  | stringFmt
  deriving DecidableEq, Repr

/-- Per-option registry entry: inclusive length bounds and value format
(`OptionDef` in `message_option.go`). -/
structure OptionDef where
  minLen : Nat
  maxLen : Nat
  format : VFormat
  deriving DecidableEq, Repr

/-- The option registry `CoapOptionDefs` of `message_option.go`:
CoAP-standard options plus the GiterLab private options.  A lookup of an
unregistered ID yields `none` (the Go map returns its zero value, whose
format is Unknown). -/
def CoapOptionDefs (id : Nat) : Option OptionDef :=
  match id with
  | 1 => some ⟨0, 8, .opaqFmt⟩        -- IfMatch
  | 3 => some ⟨1, 255, .stringFmt⟩    -- URIHost
  | 4 => some ⟨1, 8, .opaqFmt⟩        -- ETag
  | 5 => some ⟨0, 0, .emptyFmt⟩       -- IfNoneMatch
  | 6 => some ⟨0, 3, .uintFmt⟩        -- Observe
  | 7 => some ⟨0, 2, .uintFmt⟩        -- URIPort
  | 8 => some ⟨0, 255, .stringFmt⟩    -- LocationPath
  | 11 => some ⟨0, 255, .stringFmt⟩   -- URIPath
  | 12 => some ⟨0, 2, .uintFmt⟩       -- ContentFormat
  | 14 => some ⟨0, 4, .uintFmt⟩       -- MaxAge
  | 15 => some ⟨0, 255, .stringFmt⟩   -- URIQuery
  | 17 => some ⟨0, 2, .uintFmt⟩       -- Accept
  | 20 => some ⟨0, 255, .stringFmt⟩   -- LocationQuery
  | 23 => some ⟨0, 3, .uintFmt⟩       -- Block2
  | 27 => some ⟨0, 3, .uintFmt⟩       -- Block1
  | 28 => some ⟨0, 4, .uintFmt⟩       -- Size2
  | 35 => some ⟨1, 1034, .stringFmt⟩  -- ProxyURI
  | 39 => some ⟨1, 255, .stringFmt⟩   -- ProxyScheme
  | 60 => some ⟨0, 4, .uintFmt⟩       -- Size1
  | 65000 => some ⟨0, 255, .stringFmt⟩ -- GiterLabID
  | 65001 => some ⟨0, 255, .stringFmt⟩ -- GiterLabKey
  | 65002 => some ⟨0, 255, .stringFmt⟩ -- AccessID
  | 65003 => some ⟨0, 255, .stringFmt⟩ -- AccessKey
  | 65004 => some ⟨0, 4, .uintFmt⟩     -- CheckCRC32
  | 65005 => some ⟨0, 4, .uintFmt⟩     -- EncoderType
  | 65006 => some ⟨0, 4, .uintFmt⟩     -- EncoderID
  | 65100 => some ⟨0, 2, .uintFmt⟩     -- PackageNumber
  | _ => none

/-- Source `VerifyOptLen` of `message_option.go`: length bounds check against
the registry, where a missing entry behaves as the zero `OptionDef`
(bounds 0..0). -/
def VerifyOptLen (id valueLen : Nat) : Bool :=
  let d := (CoapOptionDefs id).getD ⟨0, 0, .unknownFmt⟩
  decide (d.minLen ≤ valueLen) && decide (valueLen ≤ d.maxLen)

def ExtendOptionByteCode : Nat := 13
def ExtendOptionByteAddend : Nat := 13
def ExtendOptionWordCode : Nat := 14
def ExtendOptionWordAddend : Nat := 269
def ExtendOptionError : Nat := 15

/-- Source `extendOpt` of `message_option.go`: split a delta or length value
into its 4-bit nibble and extension value. -/
def extendOpt (opt : Nat) : Nat × Nat :=
  if opt ≥ ExtendOptionByteAddend then
    if opt ≥ ExtendOptionWordAddend then
      (ExtendOptionWordCode, opt - ExtendOptionWordAddend)
    else
      (ExtendOptionByteCode, opt - ExtendOptionByteAddend)
  else (opt, 0)

/-- Source `parseExtOpt` of `message_option.go`: read the extension bytes
indicated by the nibble `opt` from `data`, returning the number of bytes
processed and the reconstructed value (a nibble other than 13 or 14
consumes nothing and passes through). -/
def parseExtOpt (data : List Nat) (opt : Nat) : Except Err (Nat × Nat) :=
  if opt == ExtendOptionByteCode then
    match data with
    | [] => .error .optionTruncated
    | b :: _ => .ok (1, b + ExtendOptionByteAddend)
  else if opt == ExtendOptionWordCode then
    match data with
    | b0 :: b1 :: _ => .ok (2, b0 * 256 + b1 + ExtendOptionWordAddend)
    | _ => .error .optionTruncated
  else .ok (0, opt)

/-- Extension bytes written by `marshalOptionHeaderExt` of
`message_option.go` (and by `writeExt` inside the legacy
`Message.MarshalBinary`): one byte `byte(ext)` for nibble 13, two bytes
`uint16(ext)` big-endian for nibble 14, nothing otherwise. -/
def marshalExtBytes (opt ext : Nat) : List Nat :=
  if opt == ExtendOptionByteCode then [ext % 256]
  else if opt == ExtendOptionWordCode then [ext / 256 % 256, ext % 256]
  else []

/-- Option header bytes written by `marshalOptionHeader` of
`message_option.go` (and by `writeOptHeader` inside the legacy
`Message.MarshalBinary`): the delta/length nibble byte followed by the
delta extension bytes and the length extension bytes. -/
def optionHeaderBytes (delta length : Nat) : List Nat :=
  let d := (extendOpt delta).1
  let dx := (extendOpt delta).2
  let l := (extendOpt length).1
  let lx := (extendOpt length).2
  (d * 16 + l) :: (marshalExtBytes d dx ++ marshalExtBytes l lx)

/-- A `secoapcore` option: identifier and raw value bytes. -/
structure Opt where
  id : Nat
  value : List Nat
  deriving DecidableEq, Repr

/-- Stable sort of an option list by ascending ID (the delta encoder
serializes options in nondecreasing ID order with a stable sort,
`sort.Stable` in the source; insertion sort has the same stable
semantics). -/
def sortOptsByID (opts : List Opt) : List Opt :=
  List.insertionSort (fun a b => a.id ≤ b.id) opts

/-- Delta-encode a list of options (already in serialization order)
against the running previous ID. -/
def optsMarshalGo (prev : Nat) : List Opt → List Nat
  | [] => []
  | o :: rest =>
      optionHeaderBytes (o.id - prev) o.value.length ++ o.value ++
        optsMarshalGo o.id rest

/-- Modelled from the spec: `secoapcore.Options.Marshal` (the
`secoapcore` option-list source file is absent; only the per-option
helpers survive in `message_option.go`).  Options are serialized in
nondecreasing ID order using a stable sort, each as delta-from-previous
TLV per section 4.3; with a nil buffer the function returns this byte
count together with ErrTooSmall (size probe). -/
def optsMarshalBytes (opts : List Opt) : List Nat :=
  optsMarshalGo 0 (sortOptsByID opts)

/-- Whether a decoded option is kept: its ID must be registered and its
value length within the registered inclusive bounds; otherwise the
option is silently skipped (RFC7252 sections 5.4.1 and 5.4.3). -/
def optIsKept (id len : Nat) : Bool :=
  match CoapOptionDefs id with
  | some d => decide (d.minLen ≤ len) && decide (len ≤ d.maxLen)
  | none => false

/-- Modelled from the spec: `secoapcore.Options.Unmarshal` (source file
absent).  Parse TLV options from `data` with running previous ID `prev`
until the data ends or a 0xFF payload marker is consumed; a reserved
nibble 15 in delta or length position is a frame error; unknown or
length-invalid options are skipped without failing the frame.  Returns
the parsed options and the number of bytes processed. -/
def optsUnmarshalGo (data : List Nat) (prev : Nat) : Except Err (List Opt × Nat) :=
  match data with
  | [] => .ok ([], 0)
  | b :: rest =>
    if b == 0xff then .ok ([], 1)
    else
      let d := b / 16
      let l := b % 16
      if d == ExtendOptionError || l == ExtendOptionError then
        .error .optionUnexpectedExtendMarker
      else
        match parseExtOpt rest d with
        | .error e => .error e
        | .ok (pd, delta) =>
          match parseExtOpt (rest.drop pd) l with
          | .error e => .error e
          | .ok (pl, length) =>
            let vdata := rest.drop (pd + pl)
            if vdata.length < length then .error .optionTruncated
            else
              let id := prev + delta
              let value := vdata.take length
              match optsUnmarshalGo (vdata.drop length) id with
              | .error e => .error e
              | .ok (opts, proc) =>
                let consumed := 1 + pd + pl + length + proc
                if optIsKept id length then .ok (⟨id, value⟩ :: opts, consumed)
                else .ok (opts, consumed)
termination_by data.length
decreasing_by
  simp only [List.length_cons, List.length_drop]
  omega

/-- The `secoapcore.Message` record: logical message shared by the three
coders.  `int32`/`int16`/`int8` fields are modelled as `Int` (negative
values mean unset). -/
structure Message where
  ver : Int
  token : List Nat
  opts : List Opt
  code : Nat
  payload : List Nat
  messageID : Int
  type : Int
  encoderID : Int
  encoderType : Int
  crc16 : Nat
  rsum8 : Nat
  deriving DecidableEq, Repr

def MaxTokenSize : Nat := 8

/-- Source `ValidateType` of `msg_type.go`: 0 <= typ <= 255. -/
def ValidateType (typ : Int) : Bool :=
  decide (0 ≤ typ) && decide (typ ≤ 255)

/-- Source `ValidateMID` of `msg_id.go`: 0 <= mid <= 65535. -/
def ValidateMID (mid : Int) : Bool :=
  decide (0 ≤ mid) && decide (mid ≤ 65535)

/-- Source `ValidateEID` of the `secoapcore` encoder-type file: 0 <= eid <= 15. -/
def ValidateEID (eid : Int) : Bool :=
  decide (0 ≤ eid) && decide (eid ≤ 15)

/-- Source `ValidateETP` of the `secoapcore` encoder-type file: 0 <= etp <= 15. -/
def ValidateETP (etp : Int) : Bool :=
  decide (0 ≤ etp) && decide (etp ≤ 15)

/-- Source `ValidateVer` of `msg_ver.go`: 0 <= ver <= 3. -/
def ValidateVer (ver : Int) : Bool :=
  decide (0 ≤ ver) && decide (ver ≤ 3)

/-- Go conversion of a signed integer to `byte` (truncation to 8 bits). -/
def toByte (i : Int) : Nat :=
  (i % 256).toNat

/-- Result of a coder `Encode` call: success with the returned size and
the bytes written, the (size, ErrTooSmall) probe return, or another
error with return value -1. -/
inductive EncodeResult where
  | ok (size : Nat) (frame : List Nat)
  | tooSmall (size : Nat)
  | err (e : Err)
  deriving DecidableEq, Repr

/-- Source `coderv0.Coder.Size`: 4 header bytes plus the payload (V0 has no
token, options or separator). -/
def sizeV0 (m : Message) : Nat :=
  4 + m.payload.length

/-- The V0 frame bytes laid out by `coderv0.Coder.Encode` once all
validations have passed: `byte0 = byte(Type)`, `byte1 = EID<<4|ETP`,
CRC16-MODBUS of the payload little-endian at bytes 2..3, then the
payload. -/
def encodeV0Frame (m : Message) : List Nat :=
  let crc := CRC16Bytes m.payload
  [toByte m.type,
   (toByte m.encoderID * 16) % 256 ||| toByte m.encoderType,
   crc % 256, crc / 256 % 256] ++ m.payload

/-- Source `coderv0.Coder.Encode`: validate type/eid/etp, probe the size,
require the buffer to hold it, then write `encodeV0Frame`. -/
def encodeV0 (m : Message) (bufLen : Nat) : EncodeResult :=
  if !ValidateType m.type then .err .invalidType
  else if !ValidateEID m.encoderID then .err .invalidEncoderID
  else if !ValidateETP m.encoderType then .err .invalidEncoderType
  else
    let size := sizeV0 m
    if bufLen < size then .tooSmall size
    else .ok size (encodeV0Frame m)

/-- Source `coderv0.Coder.Decode`: destination-passing model.  The returned
message is the state of `*m` after the call; note the source assigns all
parsed fields before comparing the CRC16. -/
def decodeV0 (data : List Nat) (m : Message) : Message × Except Err Nat :=
  match data with
  | b0 :: b1 :: b2 :: b3 :: rest =>
    if b0 / 64 != 0 then (m, .error .messageInvalidVersion)
    else
      let m' : Message :=
        { m with
          ver := 0
          payload := rest
          type := Int.ofNat (b0 % 4)
          encoderID := Int.ofNat (b1 / 16)
          encoderType := Int.ofNat (b1 % 16)
          crc16 := b2 + b3 * 256 }
      if m'.crc16 ≠ CRC16Bytes m'.payload then (m', .error .invalidRCRC16)
      else (m', .ok data.length)
  | _ => (m, .error .messageTruncated)

/-- Source `coderv1.Coder.Size`: 4 header bytes, token, marshalled options, and
payload plus one separator byte when the payload is non-empty (the
option length is taken from the nil-buffer marshal probe). -/
def sizeV1 (m : Message) : Except Err Nat :=
  if m.token.length > MaxTokenSize then .error .invalidTokenLen
  else .ok (4 + m.token.length + (optsMarshalBytes m.opts).length +
            (if m.payload.length > 0 then m.payload.length + 1 else m.payload.length))

/-- The V1 frame bytes laid out by `coderv1.Coder.Encode` once all
validations have passed: header, token, options, optional 0xFF
separator, payload. -/
def encodeV1Frame (m : Message) : List Nat :=
  [64 ||| (toByte m.type * 16) % 256 ||| (m.token.length % 16),
   m.code % 256,
   (Int.toNat m.messageID) / 256 % 256,
   (Int.toNat m.messageID) % 256] ++
  m.token ++ optsMarshalBytes m.opts ++
  (if m.payload.length > 0 then [0xff] else []) ++ m.payload

/-- Source `coderv1.Coder.Encode`: validate MessageID and Type, probe the size,
require the buffer to hold it, then write `encodeV1Frame`. -/
def encodeV1 (m : Message) (bufLen : Nat) : EncodeResult :=
  if !ValidateMID m.messageID then .err .invalidMessageID
  else if !ValidateType m.type then .err .invalidType
  else
    match sizeV1 m with
    | .error e => .err e
    | .ok size =>
      if bufLen < size then .tooSmall size
      else if m.token.length > MaxTokenSize then .err .invalidTokenLen
      else .ok size (encodeV1Frame m)

/-- Source `coderv1.Coder.Decode`: destination-passing model; all message
fields are assigned only after the header, token and options have
parsed successfully. -/
def decodeV1 (data : List Nat) (m : Message) : Message × Except Err Nat :=
  match data with
  | b0 :: b1 :: b2 :: b3 :: rest =>
    if b0 / 64 != 1 then (m, .error .messageInvalidVersion)
    else
      let tokenLen := b0 % 16
      if tokenLen > 8 then (m, .error .invalidTokenLen)
      else if rest.length < tokenLen then (m, .error .messageTruncated)
      else
        match optsUnmarshalGo (rest.drop tokenLen) 0 with
        | .error e => (m, .error e)
        | .ok (opts, proc) =>
          ({ m with
             ver := 1
             token := rest.take tokenLen
             opts := opts
             code := b1
             payload := (rest.drop tokenLen).drop proc
             messageID := Int.ofNat (b2 * 256 + b3)
             type := Int.ofNat (b0 / 16 % 4) },
           .ok data.length)
  | _ => (m, .error .messageTruncated)

/-- Source `coderv2.Coder.Size`: 8 header bytes, token, marshalled options, and
payload plus one separator byte when the payload is non-empty. -/
def sizeV2 (m : Message) : Except Err Nat :=
  if m.token.length > MaxTokenSize then .error .invalidTokenLen
  else .ok (8 + m.token.length + (optsMarshalBytes m.opts).length +
            (if m.payload.length > 0 then m.payload.length + 1 else m.payload.length))

/-- The V2 frame before the RSUM8 patch: header with byte 7 zero, token,
options, optional 0xFF separator, payload. -/
def encodeV2FrameZero (m : Message) : List Nat :=
  let crc := CRC16Bytes m.payload
  [128 ||| (m.token.length % 16 * 4) % 256 ||| toByte m.type,
   (toByte m.encoderID * 16) % 256 ||| toByte m.encoderType,
   crc / 256 % 256, crc % 256,
   (Int.toNat m.messageID) / 256 % 256,
   (Int.toNat m.messageID) % 256,
   m.code % 256,
   0] ++
  m.token ++ optsMarshalBytes m.opts ++
  (if m.payload.length > 0 then [0xff] else []) ++ m.payload

/-- The finished V2 frame: after the full frame is laid out with byte 7
zero, byte 7 is overwritten with RSUM8 of the whole frame. -/
def encodeV2Frame (m : Message) : List Nat :=
  (encodeV2FrameZero m).set 7 (RSUM8 (encodeV2FrameZero m))

/-- Source `coderv2.Coder.Encode`: validate MessageID, Type, EncoderID and
EncoderType, probe the size, require the buffer to hold it, write the
frame with byte 7 zero, then patch byte 7 with RSUM8 of the whole
frame. -/
def encodeV2 (m : Message) (bufLen : Nat) : EncodeResult :=
  if !ValidateMID m.messageID then .err .invalidMessageID
  else if !ValidateType m.type then .err .invalidType
  else if !ValidateEID m.encoderID then .err .invalidEncoderID
  else if !ValidateETP m.encoderType then .err .invalidEncoderType
  else
    match sizeV2 m with
    | .error e => .err e
    | .ok size =>
      if bufLen < size then .tooSmall size
      else if m.token.length > MaxTokenSize then .err .invalidTokenLen
      else .ok size (encodeV2Frame m)

/-- Source `coderv2.Coder.Decode`: destination-passing model.  The RSUM8,
version and token-length checks come before any assignment; the parsed
fields are stored before the CRC16 comparison, exactly as in the
source. -/
def decodeV2 (data : List Nat) (m : Message) : Message × Except Err Nat :=
  match data with
  | b0 :: b1 :: b2 :: b3 :: b4 :: b5 :: b6 :: _b7 :: rest =>
    if RSUM8 data != 0 then (m, .error .messageInvalidRSUM8)
    else if b0 / 64 != 2 then (m, .error .messageInvalidVersion)
    else
      let tokenLen := b0 / 4 % 16
      if tokenLen > 8 then (m, .error .invalidTokenLen)
      else if rest.length < tokenLen then (m, .error .messageTruncated)
      else
        match optsUnmarshalGo (rest.drop tokenLen) 0 with
        | .error e => (m, .error e)
        | .ok (opts, proc) =>
          let m' : Message :=
            { m with
              ver := 2
              token := rest.take tokenLen
              opts := opts
              code := b6
              payload := (rest.drop tokenLen).drop proc
              messageID := Int.ofNat (b4 * 256 + b5)
              type := Int.ofNat (b0 % 4)
              encoderID := Int.ofNat (b1 / 16)
              encoderType := Int.ofNat (b1 % 16)
              crc16 := b2 * 256 + b3 }
          if m'.crc16 ≠ CRC16Bytes m'.payload then (m', .error .invalidRCRC16)
          else (m', .ok data.length)
  | _ => (m, .error .messageTruncated)

/-- The dynamically typed option values of the legacy `secoap` package
(`Option.Value interface{}`), restricted to the variants the codec
produces and consumes: strings (as UTF-8 bytes), raw bytes, plain
unsigned integers, and media types. -/
inductive OptVal where
  | vstr (s : List Nat)
  | vbytes (b : List Nat)
  | vuint (v : Nat)
  | vmedia (v : Nat)
  deriving DecidableEq, Repr

/-- Source `encodeInt` of `message_option.go`: minimal big-endian encoding of a
uint32 into 0 to 4 bytes (the 3-byte form drops the high byte). -/
def encodeInt (v : Nat) : List Nat :=
  if v == 0 then []
  else if v < 256 then [v]
  else if v < 65536 then [v / 256, v % 256]
  else if v < 16777216 then [v / 65536 % 256, v / 256 % 256, v % 256]
  else [v / 16777216 % 256, v / 65536 % 256, v / 256 % 256, v % 256]

/-- Source `decodeInt` of `message_option.go`: left-zero-pad to 4 bytes, read
big-endian. -/
def decodeInt (b : List Nat) : Nat :=
  (List.replicate (4 - b.length) 0 ++ b).foldl (fun a x => a * 256 + x) 0

/-- Source `Option.ToBytes` of `message_option.go`: strings and byte slices
pass through, integer-like values use the minimal encoding. -/
def optValToBytes (v : OptVal) : List Nat :=
  match v with
  | .vstr s => s
  | .vbytes b => b
  | .vuint n => encodeInt n
  | .vmedia n => encodeInt n

/-- Source `parseOptionValue` of `message_option.go`: look the ID up in
`CoapOptionDefs` (a missing entry behaves as the zero def, whose format
is Unknown, so the option is skipped), skip on a length outside the
registered bounds, else decode the value per the registered format;
ContentFormat (12) and Accept (17) decode as MediaType. -/
def parseOptionValue (id : Nat) (valueBuf : List Nat) : Option OptVal :=
  match CoapOptionDefs id with
  | none => none
  | some d =>
    if valueBuf.length < d.minLen || valueBuf.length > d.maxLen then none
    else
      match d.format with
      | .uintFmt =>
        if id == 12 || id == 17 then some (.vmedia (decodeInt valueBuf))
        else some (.vuint (decodeInt valueBuf))
      | .stringFmt => some (.vstr valueBuf)
      | .opaqFmt => some (.vbytes valueBuf)
      | .emptyFmt => some (.vbytes valueBuf)
      | .unknownFmt => none

/-- The legacy `secoap.Message` of the package root: token, typed
options, code, payload, message ID and type. -/
structure MessageL where
  token : List Nat
  opts : List (Nat × OptVal)
  code : Nat
  payload : List Nat
  messageID : Int
  type : Int
  deriving DecidableEq, Repr

/-- Stable sort of legacy options by ascending ID (`sort.Stable(&m.Opts)`
in `Message.MarshalBinary`). -/
def sortOptsL (opts : List (Nat × OptVal)) : List (Nat × OptVal) :=
  List.insertionSort (fun a b => a.1 ≤ b.1) opts

/-- Serialization of a legacy option list in the order given, with
running previous ID (the loop body of `Message.MarshalBinary`). -/
def optsMarshalL (prev : Nat) : List (Nat × OptVal) → List Nat
  | [] => []
  | o :: rest =>
      optionHeaderBytes (o.1 - prev) (optValToBytes o.2).length ++
        optValToBytes o.2 ++ optsMarshalL o.1 rest

/-- Source `Message.MarshalBinary` of the legacy `secoap` package: 4-byte
header, token, stably sorted delta-encoded options, 0xFF separator iff
the payload is non-empty, payload. -/
def marshalBinary (m : MessageL) : List Nat :=
  [64 ||| (toByte m.type * 16) % 256 ||| (m.token.length % 16),
   m.code % 256,
   (Int.toNat m.messageID) / 256 % 256,
   (Int.toNat m.messageID) % 256] ++
  m.token ++ optsMarshalL 0 (sortOptsL m.opts) ++
  (if m.payload.length > 0 then [0xff] else []) ++ m.payload

/-- The option loop of `Message.UnmarshalBinary` (part of the legacy
`secoap` package): parse options until the data ends or a 0xFF marker
starts the payload; a nibble 15 in delta or length position is an
error; options whose `parseOptionValue` is nil are dropped.  Returns
the accepted options and the payload. -/
def parseOptsL (b : List Nat) (prev : Nat) :
    Except Err (List (Nat × OptVal) × List Nat) :=
  match b with
  | [] => .ok ([], [])
  | x :: rest =>
    if x == 0xff then .ok ([], rest)
    else
      let delta := x / 16
      let length := x % 16
      if delta == ExtendOptionError || length == ExtendOptionError then
        .error .unexpectedExtendMarker
      else
        match parseExtOpt rest delta with
        | .error _ => .error .truncated
        | .ok (pd, delta) =>
          match parseExtOpt (rest.drop pd) length with
          | .error _ => .error .truncated
          | .ok (pl, length) =>
            let vdata := rest.drop (pd + pl)
            if vdata.length < length then .error .truncated
            else
              let oid := prev + delta
              match parseOptsL (vdata.drop length) oid with
              | .error e => .error e
              | .ok (opts, payload) =>
                match parseOptionValue oid (vdata.take length) with
                | some v => .ok ((oid, v) :: opts, payload)
                | none => .ok (opts, payload)
termination_by b.length
decreasing_by
  simp only [List.length_cons, List.length_drop]
  omega

/-- Source `Message.UnmarshalBinary` of the legacy `secoap` package, starting
from a zero message as in `ParseMessage`: header and token checks, then
the option loop, then the payload. -/
def unmarshalBinary (data : List Nat) : Except Err MessageL :=
  match data with
  | b0 :: b1 :: b2 :: b3 :: rest =>
    if b0 / 64 != 1 then .error .invalidVersion
    else
      let tokenLen := b0 % 16
      if tokenLen > 8 then .error .invalidTokenLen
      else if rest.length < tokenLen then .error .truncated
      else
        match parseOptsL (rest.drop tokenLen) 0 with
        | .error e => .error e
        | .ok (opts, payload) =>
          .ok { token := rest.take tokenLen
                opts := opts
                code := b1
                payload := payload
                messageID := Int.ofNat (b2 * 256 + b3)
                type := Int.ofNat (b0 / 16 % 4) }
  | _ => .error .shortPacket

/-- Source `Message.Path` of the legacy package: the values of all URIPath
(ID 11) options, as strings. -/
def pathOf (m : MessageL) : List (List Nat) :=
  m.opts.filterMap (fun o =>
    if o.1 == 11 then
      match o.2 with
      | .vstr s => some s
      | _ => none
    else none)

/-- The envelope `message.Message` wrapper state (part of the `message`
package): the wrapped core message and the modification flag. -/
structure MsgState where
  msg : Message
  isModified : Bool
  deriving DecidableEq, Repr

/-- Source `Message.SetVersion` of the `message` package. -/
def SetVersion (r : MsgState) (ver : Int) : MsgState :=
  { r with msg := { r.msg with ver := ver }, isModified := true }

/-- Source `Message.UpsertVersion` of the `message` package: returns
immediately when the ARGUMENT is a valid version, and calls SetVersion
otherwise. -/
def UpsertVersion (r : MsgState) (ver : Int) : MsgState :=
  if ValidateVer ver then r else SetVersion r ver

/-- Source `Message.SetMessageID` of the `message` package. -/
def SetMessageID (r : MsgState) (mid : Int) : MsgState :=
  { r with msg := { r.msg with messageID := mid }, isModified := true }

/-- Source `Message.UpsertMessageID` of the `message` package: returns when the
STORED message ID is already valid, and assigns otherwise. -/
def UpsertMessageID (r : MsgState) (mid : Int) : MsgState :=
  if ValidateMID r.msg.messageID then r else SetMessageID r mid

/-- Source `Message.SetType` of the `message` package. -/
def SetType (r : MsgState) (typ : Int) : MsgState :=
  { r with msg := { r.msg with type := typ }, isModified := true }

/-- Source `Message.UpsertType` of the `message` package: returns when the
STORED type is already valid, and assigns otherwise. -/
def UpsertType (r : MsgState) (typ : Int) : MsgState :=
  if ValidateType r.msg.type then r else SetType r typ

/-- A message whose fields are all zero/empty, used as a concrete
decode destination. -/
def emptyMessage : Message :=
  { ver := 0, token := [], opts := [], code := 0, payload := [],
    messageID := 0, type := 0, encoderID := 0, encoderType := 0,
    crc16 := 0, rsum8 := 0 }

theorem invSum_cons (x : Nat) (l : List Nat) :
    invSum (x :: l) = (255 - x) + invSum l := by
  simp [invSum]

theorem invSum_append (a b : List Nat) :
    invSum (a ++ b) = invSum a + invSum b := by
  simp [invSum]

/-- Patching byte 7 (laid out as zero) with the RSUM8 of the whole frame
makes the RSUM8 of the patched frame zero. -/
theorem rsum8_patch (a0 a1 a2 a3 a4 a5 a6 : Nat) (t : List Nat) :
    RSUM8 ((a0 :: a1 :: a2 :: a3 :: a4 :: a5 :: a6 :: 0 :: t).set 7
      (RSUM8 (a0 :: a1 :: a2 :: a3 :: a4 :: a5 :: a6 :: 0 :: t))) = 0 := by
  simp only [List.set]
  simp only [RSUM8, invSum_cons]
  omega

theorem toByte_of_range (i : Int) (h0 : 0 ≤ i) (h1 : i ≤ 255) :
    toByte i = i.toNat := by
  unfold toByte
  have h : i % 256 = i := by omega
  rw [h]

theorem mul16_mod256 (n : Nat) : n * 16 % 256 = 16 * (n % 16) := by
  omega

/-- Splitting a byte assembled from two nibbles by or-ing. -/
theorem lorNibbles (e p : Nat) (he : e < 16) (hp : p < 16) :
    16 * e ||| p = 16 * e + p ∧ (16 * e ||| p) / 16 = e ∧ (16 * e ||| p) % 16 = p := by
  interval_cases e <;> interval_cases p <;> decide

/-- Facts about the V1 header byte `0x40 | type<<4 | tkl` for an
arbitrary 8-bit type value (`u` is the low nibble of the type). -/
theorem b0V1_facts (u k : Nat) (hu : u < 16) (hk : k < 16) :
    (64 ||| (16 * u) ||| k) / 64 = (if u < 8 then 1 else 3) ∧
    (64 ||| (16 * u) ||| k) / 16 % 4 = u % 4 ∧
    (64 ||| (16 * u) ||| k) % 16 = k := by
  interval_cases u <;> interval_cases k <;> decide

theorem extendOpt_direct (v : Nat) (h : v ≤ 12) : extendOpt v = (v, 0) := by
  unfold extendOpt ExtendOptionByteAddend ExtendOptionWordAddend
  rw [if_neg (by omega)]

theorem extendOpt_byte (v : Nat) (h13 : 13 ≤ v) (h268 : v ≤ 268) :
    extendOpt v = (13, v - 13) := by
  unfold extendOpt ExtendOptionByteAddend ExtendOptionWordAddend
    ExtendOptionByteCode
  rw [if_pos (by omega), if_neg (by omega)]

theorem extendOpt_word (v : Nat) (h : 269 ≤ v) :
    extendOpt v = (14, v - 269) := by
  unfold extendOpt ExtendOptionByteAddend ExtendOptionWordAddend
    ExtendOptionWordCode
  rw [if_pos (by omega), if_pos (by omega)]

theorem extendOpt_fst_le (v : Nat) : (extendOpt v).1 ≤ 14 ∧ (extendOpt v).1 ≤ v := by
  unfold extendOpt ExtendOptionByteAddend ExtendOptionWordAddend
    ExtendOptionByteCode ExtendOptionWordCode
  split
  · split <;> simp <;> omega
  · simp; omega

/-- For every value representable by the wire format (at most
65535 + 269), parsing the marshalled extension bytes recovers the
value. -/
theorem parse_marshal_ext (v : Nat) (hv : v ≤ 65804) (rest : List Nat) :
    parseExtOpt (marshalExtBytes (extendOpt v).1 (extendOpt v).2 ++ rest)
      (extendOpt v).1 =
      .ok ((marshalExtBytes (extendOpt v).1 (extendOpt v).2).length, v) := by
  rcases Nat.lt_or_ge v 13 with h | h
  · rw [extendOpt_direct v (by omega)]
    unfold marshalExtBytes parseExtOpt ExtendOptionByteCode ExtendOptionWordCode
    simp only
    rw [if_neg (by simp; omega), if_neg (by simp; omega),
        if_neg (by simp; omega), if_neg (by simp; omega)]
    simp
  · rcases Nat.lt_or_ge v 269 with h2 | h2
    · rw [extendOpt_byte v (by omega) (by omega)]
      unfold marshalExtBytes parseExtOpt ExtendOptionByteCode ExtendOptionWordCode
        ExtendOptionByteAddend
      simp only [if_pos rfl]
      have hb : (v - 13) % 256 = v - 13 := by omega
      simp [hb]
      omega
    · rw [extendOpt_word v (by omega)]
      have h1 : (v - 269) / 256 % 256 = (v - 269) / 256 := by omega
      simp [marshalExtBytes, parseExtOpt, ExtendOptionByteCode,
        ExtendOptionWordCode, ExtendOptionWordAddend, h1]
      omega

/-- Every kept option has a registered ID (hence at most 65100, the
largest registry entry) and a value no longer than 1034 bytes (the
largest registered MaxLen). -/
theorem optIsKept_bounds (id len : Nat) (h : optIsKept id len = true) :
    id ≤ 65100 ∧ len ≤ 1034 := by
  unfold optIsKept at h
  rcases hdef : CoapOptionDefs id with _ | d
  · rw [hdef] at h
    simp at h
  · rw [hdef] at h
    simp only [Bool.and_eq_true, decide_eq_true_eq] at h
    unfold CoapOptionDefs at hdef
    obtain ⟨h1, h2⟩ := h
    split at hdef <;>
      first
        | (injection hdef with hd
           subst hd
           simp only at h1 h2
           exact ⟨by omega, by omega⟩)
        | simp_all

theorem optsUnmarshalGo_step (prev delta len : Nat) (value rest : List Nat)
    (hd : delta ≤ 65804) (hl : len ≤ 65804) (hv : value.length = len) :
    optsUnmarshalGo (optionHeaderBytes delta len ++ (value ++ rest)) prev =
      match optsUnmarshalGo rest (prev + delta) with
      | .error e => .error e
      | .ok (opts, proc) =>
        .ok ((if optIsKept (prev + delta) len then [⟨prev + delta, value⟩] else []) ++ opts,
             (optionHeaderBytes delta len).length + len + proc) := by
  obtain ⟨hdle, -⟩ := extendOpt_fst_le delta
  obtain ⟨hlle, -⟩ := extendOpt_fst_le len
  have hhdr : optionHeaderBytes delta len
      = ((extendOpt delta).1 * 16 + (extendOpt len).1) ::
        (marshalExtBytes (extendOpt delta).1 (extendOpt delta).2 ++
         marshalExtBytes (extendOpt len).1 (extendOpt len).2) := rfl
  have hb : ((extendOpt delta).1 * 16 + (extendOpt len).1) ≠ 255 := by omega
  have hdiv : ((extendOpt delta).1 * 16 + (extendOpt len).1) / 16 = (extendOpt delta).1 := by
    omega
  have hmod : ((extendOpt delta).1 * 16 + (extendOpt len).1) % 16 = (extendOpt len).1 := by
    omega
  have hd15 : (extendOpt delta).1 ≠ ExtendOptionError := by
    unfold ExtendOptionError; omega
  have hl15 : (extendOpt len).1 ≠ ExtendOptionError := by
    unfold ExtendOptionError; omega
  rw [hhdr]
  rw [optsUnmarshalGo.eq_def]
  simp only [List.cons_append, List.append_assoc]
  simp only [hdiv, hmod, beq_iff_eq, hb, if_false, hd15, hl15, or_self,
    Bool.or_eq_true, decide_eq_true_eq, false_or, or_false, if_neg,
    not_false_eq_true]
  rw [parse_marshal_ext delta hd]
  simp only
  rw [List.drop_left]
  rw [parse_marshal_ext len hl]
  simp only
  have hassoc : (marshalExtBytes (extendOpt delta).1 (extendOpt delta).2 ++
      (marshalExtBytes (extendOpt len).1 (extendOpt len).2 ++ (value ++ rest))) =
      (marshalExtBytes (extendOpt delta).1 (extendOpt delta).2 ++
       marshalExtBytes (extendOpt len).1 (extendOpt len).2) ++ (value ++ rest) := by
    simp [List.append_assoc]
  have hlen2 : (marshalExtBytes (extendOpt delta).1 (extendOpt delta).2).length +
      (marshalExtBytes (extendOpt len).1 (extendOpt len).2).length =
      ((marshalExtBytes (extendOpt delta).1 (extendOpt delta).2 ++
        marshalExtBytes (extendOpt len).1 (extendOpt len).2)).length := by
    simp [List.length_append]
  rw [hassoc, hlen2, List.drop_left]
  have hnlt : ¬ ((value ++ rest).length < len) := by
    simp [List.length_append]; omega
  rw [if_neg hnlt]
  have htake : (value ++ rest).take len = value := by
    rw [← hv]; exact List.take_left value rest
  have hdrop : (value ++ rest).drop len = rest := by
    rw [← hv]; exact List.drop_left value rest
  rw [htake, hdrop]
  rcases hrec : optsUnmarshalGo rest (prev + delta) with e | ⟨opts, proc⟩
  · simp only
  · simp only
    by_cases hk : optIsKept (prev + delta) len = true
    · simp only [hk, if_true, List.singleton_append, Except.ok.injEq, Prod.mk.injEq,
        hhdr, List.length_cons, List.length_append]
      exact ⟨trivial, by omega⟩
    · simp only [Bool.not_eq_true] at hk
      simp only [hk, Bool.false_eq_true, if_false, List.nil_append, Except.ok.injEq,
        Prod.mk.injEq, hhdr, List.length_cons, List.length_append]
      exact ⟨trivial, by omega⟩

/-- Parsing the marshalled form of a sorted, kept option list followed
by either nothing or a payload section beginning with 0xFF yields the
very same list and consumes exactly the marshalled bytes (plus the
marker). -/
theorem optsUnmarshalGo_marshal (opts : List Opt) (prev : Nat) (tail : List Nat)
    (hpw : opts.Pairwise (fun a b => a.id ≤ b.id))
    (hlo : ∀ o ∈ opts, prev ≤ o.id)
    (hkept : ∀ o ∈ opts, optIsKept o.id o.value.length = true)
    (htail : tail = [] ∨ ∃ p, tail = 0xff :: p) :
    optsUnmarshalGo (optsMarshalGo prev opts ++ tail) prev =
      .ok (opts, (optsMarshalGo prev opts).length +
        (if tail.length = 0 then 0 else 1)) := by
  induction opts generalizing prev with
  | nil =>
    rcases htail with h | ⟨p, h⟩ <;> subst h
    · rw [optsUnmarshalGo.eq_def]
      simp [optsMarshalGo]
    · rw [optsUnmarshalGo.eq_def]
      simp [optsMarshalGo]
  | cons o rest ih =>
    have hko := hkept o (List.mem_cons_self o rest)
    obtain ⟨hid, hlen⟩ := optIsKept_bounds o.id o.value.length hko
    have hprev : prev ≤ o.id := hlo o (List.mem_cons_self o rest)
    have hmar : optsMarshalGo prev (o :: rest) ++ tail =
        optionHeaderBytes (o.id - prev) o.value.length ++
          (o.value ++ (optsMarshalGo o.id rest ++ tail)) := by
      simp [optsMarshalGo, List.append_assoc]
    rw [hmar]
    rw [optsUnmarshalGo_step prev (o.id - prev) o.value.length o.value
        (optsMarshalGo o.id rest ++ tail) (by omega) (by omega) rfl]
    have hidp : prev + (o.id - prev) = o.id := by omega
    rw [hidp]
    rw [ih o.id (List.Pairwise.of_cons hpw)
        (fun x hx => List.rel_of_pairwise_cons hpw hx)
        (fun x hx => hkept x (List.mem_cons_of_mem o hx))]
    simp only [hko, if_true, List.singleton_append, Except.ok.injEq, Prod.mk.injEq,
      optsMarshalGo, List.length_append]
    exact ⟨trivial, by omega⟩

theorem sortOptsByID_sorted (opts : List Opt) :
    (sortOptsByID opts).Pairwise (fun a b => a.id ≤ b.id) := by
  haveI : IsTotal Opt (fun a b => a.id ≤ b.id) := ⟨fun a b => Nat.le_total a.id b.id⟩
  haveI : IsTrans Opt (fun a b => a.id ≤ b.id) := ⟨fun _ _ _ h1 h2 => Nat.le_trans h1 h2⟩
  exact List.sorted_insertionSort _ opts

theorem mem_sortOptsByID (opts : List Opt) (x : Opt) :
    x ∈ sortOptsByID opts ↔ x ∈ opts :=
  (List.perm_insertionSort _ opts).mem_iff

/-- Full computation of `coderv1.Coder.Decode` on an encoded V1 frame
whose options are all kept by the registry, for any 8-bit type value
whose low nibble keeps the version bits intact. -/
theorem decodeV1_frame_ok (m m₀ : Message)
    (htok : m.token.length ≤ 8)
    (hmid0 : 0 ≤ m.messageID) (hmid1 : m.messageID ≤ 65535)
    (ht0 : 0 ≤ m.type) (ht255 : m.type ≤ 255) (hpass : m.type.toNat % 16 < 8)
    (hcode : m.code < 256)
    (hkept : ∀ o ∈ m.opts, optIsKept o.id o.value.length = true) :
    decodeV1 (encodeV1Frame m) m₀ =
      ({ m₀ with
          ver := 1
          token := m.token
          opts := sortOptsByID m.opts
          code := m.code
          payload := m.payload
          messageID := m.messageID
          type := Int.ofNat (m.type.toNat % 4) }, .ok (encodeV1Frame m).length) := by
  have htb : toByte m.type = m.type.toNat := toByte_of_range m.type ht0 ht255
  have hu16 : toByte m.type * 16 % 256 = 16 * (m.type.toNat % 16) := by
    rw [htb]; exact mul16_mod256 m.type.toNat
  have hk16 : m.token.length % 16 = m.token.length := by omega
  obtain ⟨hb64, hb16, hbmod⟩ :=
    b0V1_facts (m.type.toNat % 16) (m.token.length) (by omega) (by omega)
  rw [if_pos hpass] at hb64
  have hfr : encodeV1Frame m =
      (64 ||| (16 * (m.type.toNat % 16)) ||| m.token.length) :: (m.code % 256) ::
      ((Int.toNat m.messageID) / 256 % 256) :: ((Int.toNat m.messageID) % 256) ::
      (m.token ++ (optsMarshalBytes m.opts ++
        ((if m.payload.length > 0 then [0xff] else []) ++ m.payload))) := by
    unfold encodeV1Frame
    rw [hu16, hk16]
    simp [List.append_assoc]
  rw [hfr]
  unfold decodeV1
  simp only [hb64, hbmod, hb16, bne_self_eq_false, Bool.false_eq_true, if_false]
  rw [if_neg (by omega : ¬ m.token.length > 8)]
  have hrlen : ¬ ((m.token ++ (optsMarshalBytes m.opts ++
      ((if m.payload.length > 0 then [0xff] else []) ++ m.payload))).length <
      m.token.length) := by
    simp [List.length_append]
  rw [if_neg hrlen]
  rw [List.take_left, List.drop_left]
  have hopts : optsUnmarshalGo (optsMarshalBytes m.opts ++
      ((if m.payload.length > 0 then [0xff] else []) ++ m.payload)) 0 =
      .ok (sortOptsByID m.opts, (optsMarshalBytes m.opts).length +
        (if m.payload.length = 0 then 0 else 1)) := by
    rcases Nat.eq_zero_or_pos m.payload.length with hp | hp
    · have hpl : m.payload = [] := List.length_eq_zero.mp hp
      rw [hpl]
      simp only [List.length_nil, gt_iff_lt, lt_irrefl, if_false, List.append_nil]
      have hind := optsUnmarshalGo_marshal (sortOptsByID m.opts) 0 []
        (sortOptsByID_sorted m.opts) (fun o _ => Nat.zero_le o.id)
        (fun o ho => hkept o ((mem_sortOptsByID m.opts o).mp ho)) (Or.inl rfl)
      simp only [List.append_nil, List.length_nil] at hind
      rw [show optsMarshalBytes m.opts = optsMarshalGo 0 (sortOptsByID m.opts) from rfl]
      rw [hind]
    · rw [if_pos hp]
      have hind := optsUnmarshalGo_marshal (sortOptsByID m.opts) 0 (0xff :: m.payload)
        (sortOptsByID_sorted m.opts) (fun o _ => Nat.zero_le o.id)
        (fun o ho => hkept o ((mem_sortOptsByID m.opts o).mp ho))
        (Or.inr ⟨m.payload, rfl⟩)
      rw [show optsMarshalBytes m.opts = optsMarshalGo 0 (sortOptsByID m.opts) from rfl]
      simp only [List.cons_append, List.nil_append] at hind ⊢
      rw [hind]
      simp only [List.length_cons]
      rw [if_neg (by omega), if_neg (by omega)]
  rw [hopts]
  simp only
  have hpay : ((optsMarshalBytes m.opts ++
      ((if m.payload.length > 0 then [0xff] else []) ++ m.payload))).drop
      ((optsMarshalBytes m.opts).length + (if m.payload.length = 0 then 0 else 1)) =
      m.payload := by
    rcases Nat.eq_zero_or_pos m.payload.length with hp | hp
    · have hpl : m.payload = [] := List.length_eq_zero.mp hp
      rw [hpl]
      simp
    · rw [if_pos hp, if_neg (by omega)]
      have : optsMarshalBytes m.opts ++ ([0xff] ++ m.payload) =
          (optsMarshalBytes m.opts ++ [0xff]) ++ m.payload := by
        simp [List.append_assoc]
      rw [this]
      have hlen : (optsMarshalBytes m.opts).length + 1 =
          (optsMarshalBytes m.opts ++ [0xff]).length := by simp
      rw [hlen, List.drop_left]
  rw [hpay]
  have hcode2 : m.code % 256 = m.code := by omega
  have hn : (Int.toNat m.messageID) / 256 % 256 * 256 +
      (Int.toNat m.messageID) % 256 = Int.toNat m.messageID := by omega
  have hmid : Int.ofNat (Int.toNat m.messageID) = m.messageID :=
    Int.toNat_of_nonneg hmid0
  have h164 : m.type.toNat % 16 % 4 = m.type.toNat % 4 := by omega
  rw [hcode2, hn, hmid, h164]

/-- When the low nibble of the 8-bit type value has its high bit set,
the V1 encoder's or-ing of `type<<4` corrupts the version bits and the
V1 decoder rejects the frame with the invalid-version error. -/
theorem decodeV1_frame_badver (m m₀ : Message)
    (ht0 : 0 ≤ m.type) (ht255 : m.type ≤ 255) (hfail : 8 ≤ m.type.toNat % 16) :
    decodeV1 (encodeV1Frame m) m₀ = (m₀, .error .messageInvalidVersion) := by
  have htb : toByte m.type = m.type.toNat := toByte_of_range m.type ht0 ht255
  have hu16 : toByte m.type * 16 % 256 = 16 * (m.type.toNat % 16) := by
    rw [htb]; exact mul16_mod256 m.type.toNat
  obtain ⟨hb64, -, -⟩ :=
    b0V1_facts (m.type.toNat % 16) (m.token.length % 16) (by omega) (by omega)
  rw [if_neg (by omega)] at hb64
  have hfr : encodeV1Frame m =
      (64 ||| (16 * (m.type.toNat % 16)) ||| (m.token.length % 16)) :: (m.code % 256) ::
      ((Int.toNat m.messageID) / 256 % 256) :: ((Int.toNat m.messageID) % 256) ::
      (m.token ++ (optsMarshalBytes m.opts ++
        ((if m.payload.length > 0 then [0xff] else []) ++ m.payload))) := by
    unfold encodeV1Frame
    rw [hu16]
    simp [List.append_assoc]
  rw [hfr]
  unfold decodeV1
  simp only [hb64]
  rw [if_pos (by decide)]

/-- CRC16-MODBUS of a byte string fits in 16 bits. -/
theorem crc16_lt (data : List Nat) (h : ∀ b ∈ data, b < 256) :
    CRC16Bytes data < 65536 := by
  have hround : ∀ v, v < 65536 → crc16Round v < 65536 := by
    intro v hv
    unfold crc16Round
    split
    · exact Nat.xor_lt_two_pow (n := 16) (by omega) (by norm_num)
    · omega
  have hiter : ∀ (k : Nat) (v : Nat), v < 65536 → crc16Round^[k] v < 65536 := by
    intro k
    induction k with
    | zero => intro v hv; simpa using hv
    | succ n ih =>
      intro v hv
      rw [Function.iterate_succ_apply]
      exact ih _ (hround v hv)
  have hbyte : ∀ crc b, crc < 65536 → b < 256 → crc16Byte crc b < 65536 := by
    intro crc b hc hb
    unfold crc16Byte
    exact hiter 8 _ (Nat.xor_lt_two_pow (n := 16) (by omega) (by omega))
  have hfold : ∀ (l : List Nat) (acc : Nat), (∀ b ∈ l, b < 256) → acc < 65536 →
      l.foldl crc16Byte acc < 65536 := by
    intro l
    induction l with
    | nil => intro acc _ ha; simpa using ha
    | cons x xs ih =>
      intro acc hb ha
      rw [List.foldl_cons]
      exact ih _ (fun b hbm => hb b (List.mem_cons_of_mem _ hbm))
        (hbyte acc x ha (hb x (List.mem_cons_self x xs)))
  exact hfold data 0xFFFF h (by norm_num)

/-- Full computation of `coderv0.Coder.Decode` on an encoded V0 frame
when the 8-bit type value keeps the version bits zero: decode succeeds
and the type is reduced modulo 4. -/
theorem decodeV0_frame_ok (m m₀ : Message)
    (ht0 : 0 ≤ m.type) (ht64 : m.type < 64)
    (heid0 : 0 ≤ m.encoderID) (heid1 : m.encoderID ≤ 15)
    (hetp0 : 0 ≤ m.encoderType) (hetp1 : m.encoderType ≤ 15)
    (hpb : ∀ b ∈ m.payload, b < 256) :
    decodeV0 (encodeV0Frame m) m₀ =
      ({ m₀ with
          ver := 0
          payload := m.payload
          type := Int.ofNat (m.type.toNat % 4)
          encoderID := m.encoderID
          encoderType := m.encoderType
          crc16 := CRC16Bytes m.payload }, .ok (4 + m.payload.length)) := by
  have htb : toByte m.type = m.type.toNat := toByte_of_range m.type ht0 (by omega)
  have heb : toByte m.encoderID = m.encoderID.toNat :=
    toByte_of_range m.encoderID heid0 (by omega)
  have hpb2 : toByte m.encoderType = m.encoderType.toNat :=
    toByte_of_range m.encoderType hetp0 (by omega)
  have he16 : (toByte m.encoderID * 16) % 256 = 16 * m.encoderID.toNat := by
    rw [heb]; omega
  obtain ⟨-, hdiv, hmod⟩ := lorNibbles m.encoderID.toNat m.encoderType.toNat
    (by omega) (by omega)
  have hcrc := crc16_lt m.payload hpb
  have hfr : encodeV0Frame m =
      m.type.toNat :: (16 * m.encoderID.toNat ||| m.encoderType.toNat) ::
      (CRC16Bytes m.payload % 256) :: (CRC16Bytes m.payload / 256 % 256) ::
      m.payload := by
    unfold encodeV0Frame
    rw [htb, he16, hpb2]
    simp
  rw [hfr]
  simp only [decodeV0]
  rw [if_neg (by simp; omega)]
  rw [hdiv, hmod]
  have hc : CRC16Bytes m.payload % 256 + CRC16Bytes m.payload / 256 % 256 * 256 =
      CRC16Bytes m.payload := by omega
  simp only [hc]
  rw [if_neg (by simp)]
  simp only [List.length_cons, Except.ok.injEq, Prod.mk.injEq]
  constructor
  · congr 1
    · exact Int.toNat_of_nonneg heid0
    · exact Int.toNat_of_nonneg hetp0
  · omega

/-- When the 8-bit type value is at least 64, the V0 frame's version
bits are no longer zero and the V0 decoder rejects the frame. -/
theorem decodeV0_frame_badver (m m₀ : Message)
    (ht0 : 0 ≤ m.type) (ht255 : m.type ≤ 255) (ht64 : 64 ≤ m.type) :
    decodeV0 (encodeV0Frame m) m₀ = (m₀, .error .messageInvalidVersion) := by
  have htb : toByte m.type = m.type.toNat := toByte_of_range m.type ht0 ht255
  have hfr : encodeV0Frame m =
      m.type.toNat :: ((toByte m.encoderID * 16) % 256 ||| toByte m.encoderType) ::
      (CRC16Bytes m.payload % 256) :: (CRC16Bytes m.payload / 256 % 256) ::
      m.payload := by
    unfold encodeV0Frame
    rw [htb]
    simp
  rw [hfr]
  simp only [decodeV0]
  rw [if_pos (by simp; omega)]

/-- The spec-modelled option-list parser only ever fails with the
extend-marker or truncation errors. -/
theorem optsUnmarshalGo_err_aux (n : Nat) :
    ∀ (data : List Nat) (prev : Nat) (e : Err), data.length ≤ n →
      optsUnmarshalGo data prev = .error e →
      e = .optionUnexpectedExtendMarker ∨ e = .optionTruncated := by
  induction n with
  | zero =>
    intro data prev e hlen h
    have hd : data = [] := List.length_eq_zero.mp (by omega)
    rw [hd, optsUnmarshalGo.eq_def] at h
    simp at h
  | succ n ih =>
    intro data prev e hlen h
    rw [optsUnmarshalGo.eq_def] at h
    rcases data with _ | ⟨b, rest⟩
    · simp at h
    · simp only at h
      by_cases hb : (b == 0xff) = true
      · rw [if_pos hb] at h; simp at h
      · rw [if_neg hb] at h
        by_cases h15 : (b / 16 == ExtendOptionError || b % 16 == ExtendOptionError) = true
        · rw [if_pos h15] at h
          left
          exact (Except.error.injEq _ _ ▸ congrArg id h).symm ▸ by
            cases h; rfl
        · rw [if_neg h15] at h
          rcases hpd : parseExtOpt rest (b / 16) with e1 | ⟨pd, delta⟩
          · rw [hpd] at h
            simp only [Except.error.injEq] at h
            subst h
            right
            unfold parseExtOpt at hpd
            split at hpd <;> [skip; split at hpd] <;>
              first
                | (split at hpd <;> simp_all)
                | simp_all
          · rw [hpd] at h
            simp only at h
            rcases hpl : parseExtOpt (rest.drop pd) (b % 16) with e2 | ⟨pl, len⟩
            · rw [hpl] at h
              simp only [Except.error.injEq] at h
              subst h
              right
              unfold parseExtOpt at hpl
              split at hpl <;> [skip; split at hpl] <;>
                first
                  | (split at hpl <;> simp_all)
                  | simp_all
            · rw [hpl] at h
              simp only at h
              by_cases hv : (rest.drop (pd + pl)).length < len
              · rw [if_pos hv] at h
                simp only [Except.error.injEq] at h
                right
                exact h.symm
              · rw [if_neg hv] at h
                rcases hrec : optsUnmarshalGo ((rest.drop (pd + pl)).drop len)
                    (prev + delta) with e3 | ⟨opts, proc⟩
                · rw [hrec] at h
                  simp only [Except.error.injEq] at h
                  subst h
                  refine ih _ _ _ ?_ hrec
                  simp only [List.length_drop]
                  simp only [List.length_cons] at hlen
                  omega
                · rw [hrec] at h
                  split at h
                  · simp_all
                  · split at h <;> simp_all

theorem optsUnmarshalGo_err (data : List Nat) (prev : Nat) (e : Err)
    (h : optsUnmarshalGo data prev = .error e) :
    e = .optionUnexpectedExtendMarker ∨ e = .optionTruncated :=
  optsUnmarshalGo_err_aux data.length data prev e (Nat.le_refl _) h

/-- RSUM8 of a finished V2 frame is zero. -/
theorem encodeV2Frame_rsum0 (m : Message) : RSUM8 (encodeV2Frame m) = 0 := by
  unfold encodeV2Frame
  have hz : encodeV2FrameZero m =
      (128 ||| (m.token.length % 16 * 4) % 256 ||| toByte m.type) ::
      ((toByte m.encoderID * 16) % 256 ||| toByte m.encoderType) ::
      (CRC16Bytes m.payload / 256 % 256) :: (CRC16Bytes m.payload % 256) ::
      ((Int.toNat m.messageID) / 256 % 256) :: ((Int.toNat m.messageID) % 256) ::
      (m.code % 256) :: 0 ::
      (m.token ++ optsMarshalBytes m.opts ++
        (if m.payload.length > 0 then [0xff] else []) ++ m.payload) := rfl
  rw [hz]
  exact rsum8_patch _ _ _ _ _ _ _ _

/-- A V2 frame whose RSUM8 is zero is never rejected with the RSUM8
error by the V2 decoder. -/
theorem decodeV2_no_rsum_error (data : List Nat) (m₀ : Message)
    (h : RSUM8 data = 0) :
    (decodeV2 data m₀).2 ≠ Except.error Err.messageInvalidRSUM8 := by
  rcases data with _ | ⟨b0, _ | ⟨b1, _ | ⟨b2, _ | ⟨b3, _ | ⟨b4, _ | ⟨b5, _ | ⟨b6, _ | ⟨b7, rest⟩⟩⟩⟩⟩⟩⟩⟩
  · simp [decodeV2]
  · simp [decodeV2]
  · simp [decodeV2]
  · simp [decodeV2]
  · simp [decodeV2]
  · simp [decodeV2]
  · simp [decodeV2]
  · simp [decodeV2]
  · simp only [decodeV2]
    rw [h]
    simp only [bne_self_eq_false, Bool.false_eq_true, if_false]
    split
    · simp
    · split
      · simp
      · split
        · simp
        · rcases hopt : optsUnmarshalGo _ 0 with e | ⟨opts, proc⟩
          · simp only [hopt]
            rcases optsUnmarshalGo_err _ _ _ hopt with he | he <;> simp [he]
          · simp only [hopt]
            split <;> simp

theorem encodeV1Frame_length (m : Message) :
    (encodeV1Frame m).length = 4 + m.token.length + (optsMarshalBytes m.opts).length +
      m.payload.length + (if 0 < m.payload.length then 1 else 0) := by
  unfold encodeV1Frame
  rcases Nat.eq_zero_or_pos m.payload.length with hp | hp
  · simp [List.length_append, hp]
    omega
  · rw [if_pos (by omega : m.payload.length > 0), if_pos hp]
    simp [List.length_append]
    omega

theorem sizeV1_eq (m : Message) (htok : m.token.length ≤ 8) :
    sizeV1 m = .ok ((encodeV1Frame m).length) := by
  unfold sizeV1
  rw [if_neg (by unfold MaxTokenSize; omega : ¬ m.token.length > MaxTokenSize)]
  rw [encodeV1Frame_length]
  congr 1
  rcases Nat.eq_zero_or_pos m.payload.length with hp | hp
  · simp [hp]
  · rw [if_pos hp, if_pos hp]
    omega

theorem encodeV1_ok (m : Message) (htok : m.token.length ≤ 8)
    (hmid : ValidateMID m.messageID = true) (htyp : ValidateType m.type = true)
    (bufLen : Nat) (hbuf : (encodeV1Frame m).length ≤ bufLen) :
    encodeV1 m bufLen = .ok ((encodeV1Frame m).length) (encodeV1Frame m) := by
  unfold encodeV1
  rw [hmid, htyp]
  simp only [Bool.not_true, Bool.false_eq_true, if_false]
  rw [sizeV1_eq m htok]
  simp only
  rw [if_neg (by omega), if_neg (by unfold MaxTokenSize; omega : ¬ m.token.length > MaxTokenSize)]

theorem encodeV1_tooSmall (m : Message) (htok : m.token.length ≤ 8)
    (hmid : ValidateMID m.messageID = true) (htyp : ValidateType m.type = true)
    (bufLen : Nat) (hbuf : bufLen < (encodeV1Frame m).length) :
    encodeV1 m bufLen = .tooSmall ((encodeV1Frame m).length) := by
  unfold encodeV1
  rw [hmid, htyp]
  simp only [Bool.not_true, Bool.false_eq_true, if_false]
  rw [sizeV1_eq m htok]
  simp only
  rw [if_pos hbuf]

theorem encodeV2Frame_length (m : Message) :
    (encodeV2Frame m).length = 8 + m.token.length + (optsMarshalBytes m.opts).length +
      m.payload.length + (if 0 < m.payload.length then 1 else 0) := by
  unfold encodeV2Frame encodeV2FrameZero
  rw [List.length_set]
  rcases Nat.eq_zero_or_pos m.payload.length with hp | hp
  · simp [List.length_append, hp]
    omega
  · rw [if_pos (by omega : m.payload.length > 0), if_pos hp]
    simp [List.length_append]
    omega

theorem sizeV2_eq (m : Message) (htok : m.token.length ≤ 8) :
    sizeV2 m = .ok ((encodeV2Frame m).length) := by
  unfold sizeV2
  rw [if_neg (by unfold MaxTokenSize; omega : ¬ m.token.length > MaxTokenSize)]
  rw [encodeV2Frame_length]
  congr 1
  rcases Nat.eq_zero_or_pos m.payload.length with hp | hp
  · simp [hp]
  · rw [if_pos hp, if_pos hp]
    omega

theorem encodeV2_ok (m : Message) (htok : m.token.length ≤ 8)
    (hmid : ValidateMID m.messageID = true) (htyp : ValidateType m.type = true)
    (heid : ValidateEID m.encoderID = true) (hetp : ValidateETP m.encoderType = true)
    (bufLen : Nat) (hbuf : (encodeV2Frame m).length ≤ bufLen) :
    encodeV2 m bufLen = .ok ((encodeV2Frame m).length) (encodeV2Frame m) := by
  unfold encodeV2
  rw [hmid, htyp, heid, hetp]
  simp only [Bool.not_true, Bool.false_eq_true, if_false]
  rw [sizeV2_eq m htok]
  simp only
  rw [if_neg (by omega), if_neg (by unfold MaxTokenSize; omega : ¬ m.token.length > MaxTokenSize)]

theorem encodeV0_ok (m : Message) (htyp : ValidateType m.type = true)
    (heid : ValidateEID m.encoderID = true) (hetp : ValidateETP m.encoderType = true)
    (bufLen : Nat) (hbuf : sizeV0 m ≤ bufLen) :
    encodeV0 m bufLen = .ok (sizeV0 m) (encodeV0Frame m) := by
  unfold encodeV0
  rw [htyp, heid, hetp]
  simp only [Bool.not_true, Bool.false_eq_true, if_false]
  rw [if_neg (by omega)]

theorem parseOptsL_step (prev delta len : Nat) (value rest : List Nat)
    (hd : delta ≤ 65804) (hl : len ≤ 65804) (hv : value.length = len) :
    parseOptsL (optionHeaderBytes delta len ++ (value ++ rest)) prev =
      match parseOptsL rest (prev + delta) with
      | .error e => .error e
      | .ok (opts, payload) =>
        match parseOptionValue (prev + delta) value with
        | some v => .ok ((prev + delta, v) :: opts, payload)
        | none => .ok (opts, payload) := by
  obtain ⟨hdle, -⟩ := extendOpt_fst_le delta
  obtain ⟨hlle, -⟩ := extendOpt_fst_le len
  have hhdr : optionHeaderBytes delta len
      = ((extendOpt delta).1 * 16 + (extendOpt len).1) ::
        (marshalExtBytes (extendOpt delta).1 (extendOpt delta).2 ++
         marshalExtBytes (extendOpt len).1 (extendOpt len).2) := rfl
  have hb : ((extendOpt delta).1 * 16 + (extendOpt len).1) ≠ 255 := by omega
  have hdiv : ((extendOpt delta).1 * 16 + (extendOpt len).1) / 16 = (extendOpt delta).1 := by
    omega
  have hmod : ((extendOpt delta).1 * 16 + (extendOpt len).1) % 16 = (extendOpt len).1 := by
    omega
  have hd15 : (extendOpt delta).1 ≠ ExtendOptionError := by
    unfold ExtendOptionError; omega
  have hl15 : (extendOpt len).1 ≠ ExtendOptionError := by
    unfold ExtendOptionError; omega
  rw [hhdr]
  rw [parseOptsL.eq_def]
  simp only [List.cons_append, List.append_assoc]
  simp only [hdiv, hmod, beq_iff_eq, hb, if_false, hd15, hl15, or_self,
    Bool.or_eq_true, decide_eq_true_eq, false_or, or_false, if_neg,
    not_false_eq_true]
  rw [parse_marshal_ext delta hd]
  simp only
  rw [List.drop_left]
  rw [parse_marshal_ext len hl]
  simp only
  have hassoc : (marshalExtBytes (extendOpt delta).1 (extendOpt delta).2 ++
      (marshalExtBytes (extendOpt len).1 (extendOpt len).2 ++ (value ++ rest))) =
      (marshalExtBytes (extendOpt delta).1 (extendOpt delta).2 ++
       marshalExtBytes (extendOpt len).1 (extendOpt len).2) ++ (value ++ rest) := by
    simp [List.append_assoc]
  have hlen2 : (marshalExtBytes (extendOpt delta).1 (extendOpt delta).2).length +
      (marshalExtBytes (extendOpt len).1 (extendOpt len).2).length =
      ((marshalExtBytes (extendOpt delta).1 (extendOpt delta).2 ++
        marshalExtBytes (extendOpt len).1 (extendOpt len).2)).length := by
    simp [List.length_append]
  rw [hassoc, hlen2, List.drop_left]
  have hnlt : ¬ ((value ++ rest).length < len) := by
    simp [List.length_append]; omega
  rw [if_neg hnlt]
  have htake : (value ++ rest).take len = value := by
    rw [← hv]; exact List.take_left value rest
  have hdrop : (value ++ rest).drop len = rest := by
    rw [← hv]; exact List.drop_left value rest
  rw [htake, hdrop]

/-- C8: EncodeUint32 writes the minimal big-endian encoding — 0 bytes
for 0, 1 byte for 1..255, 2 bytes for 256..65535, 3 bytes for
65536..16777215 (high byte dropped), 4 bytes above — returning that
byte count, and DecodeUint32 applied to exactly those bytes left-zero-
pads to 4 bytes, reads big-endian, and returns the value, so decode
inverts encode for every uint32 value. -/
theorem encodeUint32_minimal_roundtrip (v : Nat) (hv : v < 4294967296) :
    (v = 0 → encodeUint32Bytes v = []) ∧
    (1 ≤ v → v ≤ 255 → (encodeUint32Bytes v).length = 1) ∧
    (256 ≤ v → v ≤ 65535 → (encodeUint32Bytes v).length = 2) ∧
    (65536 ≤ v → v ≤ 16777215 → (encodeUint32Bytes v).length = 3) ∧
    (16777216 ≤ v → (encodeUint32Bytes v).length = 4) ∧
    DecodeUint32 (encodeUint32Bytes v) = (v, (encodeUint32Bytes v).length) := by
  unfold encodeUint32Bytes DecodeUint32 max1ByteNumber max2ByteNumber max3ByteNumber
  by_cases h0 : v = 0
  · subst h0
    norm_num
    decide
  · by_cases h1 : v ≤ 255
    · rw [if_neg (by simp [h0]), if_pos h1]
      refine ⟨fun h => absurd h h0, fun _ _ => rfl, fun h2 _ => by omega,
        fun h2 _ => by omega, fun h2 => by omega, ?_⟩
      simp [List.foldl]
    · by_cases h2 : v ≤ 65535
      · rw [if_neg (by simp [h0]), if_neg h1, if_pos h2]
        refine ⟨fun h => absurd h h0, fun _ hc => by omega, fun _ _ => rfl,
          fun hc _ => by omega, fun hc => by omega, ?_⟩
        simp [List.foldl]
        omega
      · by_cases h3 : v ≤ 16777215
        · rw [if_neg (by simp [h0]), if_neg h1, if_neg h2, if_pos h3]
          refine ⟨fun h => absurd h h0, fun _ hc => by omega, fun _ hc => by omega,
            fun _ _ => rfl, fun hc => by omega, ?_⟩
          simp [List.foldl]
          omega
        · rw [if_neg (by simp [h0]), if_neg h1, if_neg h2, if_neg h3]
          refine ⟨fun h => absurd h h0, fun _ hc => by omega, fun _ hc => by omega,
            fun _ hc => by omega, fun _ => rfl, ?_⟩
          simp [List.foldl]
          omega

/-- Witness for C8 at v = 65536: three bytes 01 00 00, and decode
returns the value. -/
theorem encodeUint32_minimal_roundtrip_witness :
    (65536 : Nat) < 4294967296 ∧
    ((65536 ≤ 65536 → (65536 : Nat) ≤ 16777215 → (encodeUint32Bytes 65536).length = 3) ∧
     DecodeUint32 (encodeUint32Bytes 65536) = (65536, (encodeUint32Bytes 65536).length)) :=
  ⟨by norm_num,
   (encodeUint32_minimal_roundtrip 65536 (by norm_num)).2.2.2.1,
   (encodeUint32_minimal_roundtrip 65536 (by norm_num)).2.2.2.2.2⟩

/-- C10: Message.UpsertVersion validates its ARGUMENT rather than the
stored version: a valid argument leaves the message untouched, and
SetVersion runs only when the argument itself is invalid — unlike
UpsertMessageID and UpsertType, which test the stored field; so
UpsertVersion can never install a valid version. -/
theorem upsertVersion_validates_argument (r : MsgState) (v mid typ : Int) :
    (ValidateVer v = true → UpsertVersion r v = r) ∧
    (ValidateVer v = false → UpsertVersion r v = SetVersion r v) ∧
    (ValidateMID r.msg.messageID = true → UpsertMessageID r mid = r) ∧
    (ValidateMID r.msg.messageID = false →
      UpsertMessageID r mid = SetMessageID r mid) ∧
    (ValidateType r.msg.type = true → UpsertType r typ = r) ∧
    (ValidateType r.msg.type = false → UpsertType r typ = SetType r typ) := by
  unfold UpsertVersion UpsertMessageID UpsertType
  refine ⟨fun h => ?_, fun h => ?_, fun h => ?_, fun h => ?_, fun h => ?_, fun h => ?_⟩ <;>
    simp [h]

/-- Witness for C10: the valid version 1 never modifies the state, and
an invalid version is assigned. -/
theorem upsertVersion_validates_argument_witness :
    UpsertVersion ⟨emptyMessage, false⟩ 1 = ⟨emptyMessage, false⟩ ∧
    UpsertVersion ⟨emptyMessage, false⟩ 9 = SetVersion ⟨emptyMessage, false⟩ 9 :=
  ⟨(upsertVersion_validates_argument ⟨emptyMessage, false⟩ 1 0 0).1 (by decide),
   (upsertVersion_validates_argument ⟨emptyMessage, false⟩ 9 0 0).2.1 (by decide)⟩

/-- C7 (amended): delta/length values 0..12 are stored directly with no
extension byte; 13..268 as nibble 13 with one extension byte carrying
v-13; v >= 269 as nibble 14 with a two-byte big-endian extension
carrying v-269; parseExtOpt inverts the marshalled extension for every
v up to 65804 (the largest value whose extension fits the two bytes);
and on decode a nibble 15 in delta or length position of a byte other
than the 0xFF payload marker fails with the unexpected-extend-marker
error. -/
theorem extension_boundaries (v x prev : Nat) (rest tail : List Nat) :
    (v ≤ 12 → extendOpt v = (v, 0) ∧ marshalExtBytes v 0 = []) ∧
    (13 ≤ v → v ≤ 268 → extendOpt v = (13, v - 13) ∧
      marshalExtBytes 13 (v - 13) = [v - 13]) ∧
    (269 ≤ v → extendOpt v = (14, v - 269)) ∧
    (v ≤ 65804 →
      parseExtOpt (marshalExtBytes (extendOpt v).1 (extendOpt v).2 ++ rest)
        (extendOpt v).1 =
        .ok ((marshalExtBytes (extendOpt v).1 (extendOpt v).2).length, v)) ∧
    (x ≠ 0xff → x / 16 = 15 ∨ x % 16 = 15 →
      parseOptsL (x :: tail) prev = .error .unexpectedExtendMarker) := by
  refine ⟨?_, ?_, ?_, ?_, ?_⟩
  · intro h
    refine ⟨extendOpt_direct v h, ?_⟩
    unfold marshalExtBytes ExtendOptionByteCode ExtendOptionWordCode
    rw [if_neg (by simp; omega), if_neg (by simp; omega)]
  · intro h13 h268
    refine ⟨extendOpt_byte v h13 h268, ?_⟩
    unfold marshalExtBytes ExtendOptionByteCode
    rw [if_pos (by simp)]
    congr 1
    omega
  · exact extendOpt_word v
  · exact fun h => parse_marshal_ext v h rest
  · intro hx h15
    rw [parseOptsL.eq_def]
    simp only
    rw [if_neg (by simp [hx])]
    rw [if_pos (by
      simp only [ExtendOptionError, Bool.or_eq_true, beq_iff_eq]
      exact h15)]

/-- Counterexample for C7 as stated: at v = 65805 the two-byte
extension cannot carry v - 269 = 65536; the bytes written are 00 00 and
parsing returns 269, not 65805. -/
theorem extension_boundaries_counterexample :
    extendOpt 65805 = (14, 65536) ∧
    marshalExtBytes (extendOpt 65805).1 (extendOpt 65805).2 = [0, 0] ∧
    parseExtOpt (marshalExtBytes (extendOpt 65805).1 (extendOpt 65805).2)
      (extendOpt 65805).1 = .ok (2, 269) ∧
    (269 : Nat) ≠ 65805 :=
  ⟨rfl, rfl, rfl, by decide⟩

/-- Witness for C7 at v = 270 (word extension carrying 1) and the
reserved byte 0xF0. -/
theorem extension_boundaries_witness :
    ((270 : Nat) ≤ 65804 →
      parseExtOpt (marshalExtBytes (extendOpt 270).1 (extendOpt 270).2 ++ [])
        (extendOpt 270).1 =
        .ok ((marshalExtBytes (extendOpt 270).1 (extendOpt 270).2).length, 270)) ∧
    ((0xF0 : Nat) ≠ 0xff → (0xF0 : Nat) / 16 = 15 ∨ (0xF0 : Nat) % 16 = 15 →
      parseOptsL (0xF0 :: []) 0 = .error .unexpectedExtendMarker) ∧
    parseOptsL [0xF0] 0 = .error .unexpectedExtendMarker :=
  ⟨(extension_boundaries 270 0xF0 0 [] []).2.2.2.1,
   (extension_boundaries 270 0xF0 0 [] []).2.2.2.2,
   (extension_boundaries 270 0xF0 0 [] []).2.2.2.2 (by decide) (by decide)⟩

/-- C4: for every valid message (including one with an empty option
list), coderv1 Encode with a nil or too-short buffer returns the exact
required size together with ErrTooSmall; with a buffer of exactly that
size it succeeds, returns that size and writes exactly that many bytes;
and Coder.Size returns the same size, which equals header + token +
marshalled options + payload plus one separator byte iff the payload is
non-empty. -/
theorem coderv1_size_probe (m : Message)
    (htok : m.token.length ≤ 8)
    (hmid0 : 0 ≤ m.messageID) (hmid1 : m.messageID ≤ 65535)
    (htyp0 : 0 ≤ m.type) (htyp1 : m.type ≤ 255) :
    sizeV1 m = .ok ((encodeV1Frame m).length) ∧
    (∀ bufLen, bufLen < (encodeV1Frame m).length →
      encodeV1 m bufLen = .tooSmall ((encodeV1Frame m).length)) ∧
    encodeV1 m ((encodeV1Frame m).length) =
      .ok ((encodeV1Frame m).length) (encodeV1Frame m) ∧
    (encodeV1Frame m).length = 4 + m.token.length + (optsMarshalBytes m.opts).length +
      m.payload.length + (if 0 < m.payload.length then 1 else 0) := by
  have hmid : ValidateMID m.messageID = true := by
    unfold ValidateMID
    simp only [Bool.and_eq_true, decide_eq_true_eq]
    omega
  have htyp : ValidateType m.type = true := by
    unfold ValidateType
    simp only [Bool.and_eq_true, decide_eq_true_eq]
    omega
  exact ⟨sizeV1_eq m htok,
    fun bufLen h => encodeV1_tooSmall m htok hmid htyp bufLen h,
    encodeV1_ok m htok hmid htyp _ (Nat.le_refl _),
    encodeV1Frame_length m⟩

/-- Witness for C4 on a concrete message with an empty option list:
size 4, a zero-length buffer probes (4, ErrTooSmall), a 4-byte buffer
succeeds writing 4 bytes. -/
theorem coderv1_size_probe_witness :
    sizeV1 emptyMessage = .ok ((encodeV1Frame emptyMessage).length) ∧
    encodeV1 emptyMessage 0 = .tooSmall ((encodeV1Frame emptyMessage).length) ∧
    encodeV1 emptyMessage ((encodeV1Frame emptyMessage).length) =
      .ok ((encodeV1Frame emptyMessage).length) (encodeV1Frame emptyMessage) ∧
    (encodeV1Frame emptyMessage).length = 4 := by
  have h := coderv1_size_probe emptyMessage (by decide) (by decide) (by decide)
    (by decide) (by decide)
  exact ⟨h.1, h.2.1 0 (by decide), h.2.2.1, by decide⟩

theorem encodeV2FrameZero_length_ge (m : Message) :
    8 ≤ (encodeV2FrameZero m).length := by
  unfold encodeV2FrameZero
  simp [List.length_append]

/-- C1: for every Version-2 message with valid fields and a buffer of
at least Size(m) bytes, coderv2 Encode succeeds and produces a frame of
exactly the returned size whose RSUM8 is zero: byte 7 is laid out as
zero and then overwritten with RSUM8 of the whole frame, so the V2
decoder's RSUM8 check accepts the frame. -/
theorem coderv2_encode_rsum8 (m m₀ : Message) (bufLen : Nat)
    (htok : m.token.length ≤ 8)
    (hmid0 : 0 ≤ m.messageID) (hmid1 : m.messageID ≤ 65535)
    (htyp0 : 0 ≤ m.type) (htyp1 : m.type ≤ 3)
    (heid0 : 0 ≤ m.encoderID) (heid1 : m.encoderID ≤ 15)
    (hetp0 : 0 ≤ m.encoderType) (hetp1 : m.encoderType ≤ 15)
    (hbuf : (encodeV2Frame m).length ≤ bufLen) :
    encodeV2 m bufLen = .ok ((encodeV2Frame m).length) (encodeV2Frame m) ∧
    sizeV2 m = .ok ((encodeV2Frame m).length) ∧
    encodeV2Frame m =
      (encodeV2FrameZero m).set 7 (RSUM8 (encodeV2FrameZero m)) ∧
    (encodeV2Frame m)[7]? = some (RSUM8 (encodeV2FrameZero m)) ∧
    RSUM8 (encodeV2Frame m) = 0 ∧
    (decodeV2 (encodeV2Frame m) m₀).2 ≠ .error .messageInvalidRSUM8 := by
  have hmid : ValidateMID m.messageID = true := by
    unfold ValidateMID
    simp only [Bool.and_eq_true, decide_eq_true_eq]
    omega
  have htyp : ValidateType m.type = true := by
    unfold ValidateType
    simp only [Bool.and_eq_true, decide_eq_true_eq]
    omega
  have heid : ValidateEID m.encoderID = true := by
    unfold ValidateEID
    simp only [Bool.and_eq_true, decide_eq_true_eq]
    omega
  have hetp : ValidateETP m.encoderType = true := by
    unfold ValidateETP
    simp only [Bool.and_eq_true, decide_eq_true_eq]
    omega
  refine ⟨encodeV2_ok m htok hmid htyp heid hetp bufLen hbuf, sizeV2_eq m htok,
    rfl, ?_, encodeV2Frame_rsum0 m, decodeV2_no_rsum_error _ m₀ (encodeV2Frame_rsum0 m)⟩
  unfold encodeV2Frame
  exact List.getElem?_set_self (by
    have := encodeV2FrameZero_length_ge m
    omega)

/-- Witness for C1: the NonConfirmable V2 message with EID 5, MID 1,
Code POST and payload "hi" from the spec scenario encodes with a
zero-RSUM8 frame. -/
theorem coderv2_encode_rsum8_witness :
    encodeV2 { emptyMessage with
                type := 1
                encoderID := 5
                messageID := 1
                code := 2
                payload := [104, 105] } 11 =
      .ok ((encodeV2Frame { emptyMessage with
                type := 1
                encoderID := 5
                messageID := 1
                code := 2
                payload := [104, 105] }).length)
        (encodeV2Frame { emptyMessage with
                type := 1
                encoderID := 5
                messageID := 1
                code := 2
                payload := [104, 105] }) ∧
    RSUM8 (encodeV2Frame { emptyMessage with
                type := 1
                encoderID := 5
                messageID := 1
                code := 2
                payload := [104, 105] }) = 0 := by
  have h := coderv2_encode_rsum8 { emptyMessage with
                type := 1
                encoderID := 5
                messageID := 1
                code := 2
                payload := [104, 105] } emptyMessage 11
    (by decide) (by decide) (by decide) (by decide) (by decide) (by decide)
    (by decide) (by decide) (by decide) (by decide)
  exact ⟨h.1, h.2.2.2.2.1⟩

/-- C2 (amended): for every message with valid fields whose options are
registered AND have value lengths within the registered bounds, coderv1
Decode of coderv1 Encode's output succeeds and restores the message
modulo stable option sorting by ID: version becomes Version1, and
token, code, message ID, type, option multiset (in nondecreasing ID
order) and payload are all restored. -/
theorem coderv1_roundtrip (m m₀ : Message)
    (htok : m.token.length ≤ 8)
    (hmid0 : 0 ≤ m.messageID) (hmid1 : m.messageID ≤ 65535)
    (htyp0 : 0 ≤ m.type) (htyp1 : m.type ≤ 3)
    (hcode : m.code < 256)
    (hkept : ∀ o ∈ m.opts, optIsKept o.id o.value.length = true) :
    encodeV1 m ((encodeV1Frame m).length) =
      .ok ((encodeV1Frame m).length) (encodeV1Frame m) ∧
    decodeV1 (encodeV1Frame m) m₀ =
      ({ m₀ with
          ver := 1
          token := m.token
          opts := sortOptsByID m.opts
          code := m.code
          payload := m.payload
          messageID := m.messageID
          type := m.type }, .ok (encodeV1Frame m).length) := by
  have hmid : ValidateMID m.messageID = true := by
    unfold ValidateMID
    simp only [Bool.and_eq_true, decide_eq_true_eq]
    omega
  have htyp : ValidateType m.type = true := by
    unfold ValidateType
    simp only [Bool.and_eq_true, decide_eq_true_eq]
    omega
  have htyp4 : Int.ofNat (m.type.toNat % 4) = m.type := by
    have h4 : m.type.toNat % 4 = m.type.toNat := by omega
    rw [h4]
    exact Int.toNat_of_nonneg htyp0
  refine ⟨encodeV1_ok m htok hmid htyp _ (Nat.le_refl _), ?_⟩
  rw [decodeV1_frame_ok m m₀ htok hmid0 hmid1 htyp0 (by omega) (by omega) hcode hkept]
  rw [htyp4]

/-- Counterexample for C2 as stated: the registered option URIHost
(ID 3) with an empty value (below its registered MinLen 1) encodes
successfully, but decode silently drops it, so the option multiset is
not restored even modulo sorting. -/
theorem coderv1_roundtrip_counterexample :
    encodeV1 { emptyMessage with opts := [⟨3, []⟩], code := 1 } 5 =
      .ok 5 [64, 1, 0, 0, 48] ∧
    sortOptsByID [⟨3, ([] : List Nat)⟩] = [⟨3, []⟩] ∧
    (decodeV1 [64, 1, 0, 0, 48] emptyMessage).1.opts = [] := by
  refine ⟨rfl, rfl, ?_⟩
  have h0 : optsUnmarshalGo [] (0 + 3) = .ok ([], 0) := by
    rw [optsUnmarshalGo.eq_def]
  have h1 := optsUnmarshalGo_step 0 3 0 [] [] (by norm_num) (by norm_num) rfl
  rw [h0] at h1
  have h2 : optionHeaderBytes 3 0 ++ (([] : List Nat) ++ []) = [48] := rfl
  rw [h2] at h1
  have heval : optsUnmarshalGo [48] 0 = .ok ([], 1) := h1.trans rfl
  have key : decodeV1 [64, 1, 0, 0, 48] emptyMessage =
      (match optsUnmarshalGo [48] 0 with
        | Except.error e => (emptyMessage, Except.error e)
        | Except.ok (opts, proc) =>
          ({ emptyMessage with
              ver := 1
              token := []
              opts := opts
              code := 1
              payload := List.drop proc [48]
              messageID := Int.ofNat 0
              type := Int.ofNat 0 },
           Except.ok 5)) := rfl
  rw [key, heval]

/-- Witness for C2 (amended) on a GET /a/b message with a one-byte
token and payload. -/
theorem coderv1_roundtrip_witness :
    decodeV1 (encodeV1Frame { emptyMessage with
        token := [7]
        opts := [⟨11, [97]⟩, ⟨11, [98]⟩]
        code := 1
        payload := [104]
        messageID := 0x1234 }) emptyMessage =
      ({ emptyMessage with
          ver := 1
          token := [7]
          opts := sortOptsByID [⟨11, [97]⟩, ⟨11, [98]⟩]
          code := 1
          payload := [104]
          messageID := 0x1234
          type := 0 }, .ok (encodeV1Frame { emptyMessage with
            token := [7]
            opts := [⟨11, [97]⟩, ⟨11, [98]⟩]
            code := 1
            payload := [104]
            messageID := 0x1234 }).length) := by
  have h := (coderv1_roundtrip { emptyMessage with
        token := [7]
        opts := [⟨11, [97]⟩, ⟨11, [98]⟩]
        code := 1
        payload := [104]
        messageID := 0x1234 } emptyMessage
    (by decide) (by decide) (by decide) (by decide) (by decide) (by decide)
    (by decide)).2
  exact h

/-- Counterexample for C9 as stated: Type = 4 passes ValidateType, V0
Encode succeeds, yet the emitted frame's top two bits still equal the
encoder's version (byte 0 is 0x04), and V0 Decode ACCEPTS the frame
instead of rejecting it with ErrMessageInvalidVersion. -/
theorem validateType_range_mismatch_counterexample :
    ValidateType 4 = true ∧
    encodeV0 { emptyMessage with type := 4 } 4 = .ok 4 [4, 0, 255, 255] ∧
    (4 : Nat) / 64 = 0 ∧
    (decodeV0 [4, 0, 255, 255] emptyMessage).2 = .ok 4 ∧
    (decodeV0 [4, 0, 255, 255] emptyMessage).1.type = 0 :=
  ⟨by decide, rfl, rfl, rfl, rfl⟩

/-- C9 (amended): ValidateType accepts every 0..255 and the V0/V1
encoders write the type unmasked, but the version bits of the emitted
frame are corrupted only when the relevant type bits overlap them (V0:
byte(Type) >= 64; V1: bit 3 of the type's low nibble set).  In those
cases the matching Decode rejects with ErrMessageInvalidVersion; in the
remaining cases with 4 <= Type <= 255 Decode succeeds but returns
Type mod 4, so the encode-decode round trip restores Type only for
0..3. -/
theorem validateType_range_mismatch (m m₀ : Message)
    (ht4 : 4 ≤ m.type) (ht255 : m.type ≤ 255)
    (heid0 : 0 ≤ m.encoderID) (heid1 : m.encoderID ≤ 15)
    (hetp0 : 0 ≤ m.encoderType) (hetp1 : m.encoderType ≤ 15)
    (hpb : ∀ b ∈ m.payload, b < 256)
    (htok : m.token.length ≤ 8)
    (hmid0 : 0 ≤ m.messageID) (hmid1 : m.messageID ≤ 65535)
    (hcode : m.code < 256)
    (hkept : ∀ o ∈ m.opts, optIsKept o.id o.value.length = true) :
    ValidateType m.type = true ∧
    encodeV0 m (sizeV0 m) = .ok (sizeV0 m) (encodeV0Frame m) ∧
    (64 ≤ m.type →
      decodeV0 (encodeV0Frame m) m₀ = (m₀, .error .messageInvalidVersion)) ∧
    (m.type < 64 →
      (decodeV0 (encodeV0Frame m) m₀).2 = .ok (sizeV0 m) ∧
      (decodeV0 (encodeV0Frame m) m₀).1.type = Int.ofNat (m.type.toNat % 4) ∧
      Int.ofNat (m.type.toNat % 4) ≠ m.type) ∧
    encodeV1 m ((encodeV1Frame m).length) =
      .ok ((encodeV1Frame m).length) (encodeV1Frame m) ∧
    (8 ≤ m.type.toNat % 16 →
      decodeV1 (encodeV1Frame m) m₀ = (m₀, .error .messageInvalidVersion)) ∧
    (m.type.toNat % 16 < 8 →
      (decodeV1 (encodeV1Frame m) m₀).2 = .ok ((encodeV1Frame m).length) ∧
      (decodeV1 (encodeV1Frame m) m₀).1.type = Int.ofNat (m.type.toNat % 4) ∧
      Int.ofNat (m.type.toNat % 4) ≠ m.type) := by
  have ht0 : 0 ≤ m.type := by omega
  have htyp : ValidateType m.type = true := by
    unfold ValidateType
    simp only [Bool.and_eq_true, decide_eq_true_eq]
    omega
  have heid : ValidateEID m.encoderID = true := by
    unfold ValidateEID
    simp only [Bool.and_eq_true, decide_eq_true_eq]
    omega
  have hetp : ValidateETP m.encoderType = true := by
    unfold ValidateETP
    simp only [Bool.and_eq_true, decide_eq_true_eq]
    omega
  have hmid : ValidateMID m.messageID = true := by
    unfold ValidateMID
    simp only [Bool.and_eq_true, decide_eq_true_eq]
    omega
  have hne : Int.ofNat (m.type.toNat % 4) ≠ m.type := by
    rw [Int.ofNat_eq_natCast]
    omega
  refine ⟨htyp, encodeV0_ok m htyp heid hetp _ (Nat.le_refl _), ?_, ?_,
    encodeV1_ok m htok hmid htyp _ (Nat.le_refl _), ?_, ?_⟩
  · intro h64
    exact decodeV0_frame_badver m m₀ ht0 ht255 h64
  · intro h64
    rw [decodeV0_frame_ok m m₀ ht0 h64 heid0 heid1 hetp0 hetp1 hpb]
    exact ⟨by unfold sizeV0; simp, rfl, hne⟩
  · intro hfail
    exact decodeV1_frame_badver m m₀ ht0 ht255 hfail
  · intro hpass
    rw [decodeV1_frame_ok m m₀ htok hmid0 hmid1 ht0 ht255 hpass hcode hkept]
    exact ⟨rfl, rfl, hne⟩

/-- Witness for C9 (amended) at Type 4: V0 decode succeeds with the
type collapsed to 0, and at Type 8 the V1 decode rejects the frame. -/
theorem validateType_range_mismatch_witness :
    ((decodeV0 (encodeV0Frame { emptyMessage with type := 4 }) emptyMessage).2 =
      .ok (sizeV0 { emptyMessage with type := 4 }) ∧
     (decodeV0 (encodeV0Frame { emptyMessage with type := 4 }) emptyMessage).1.type =
      Int.ofNat ((4 : Int).toNat % 4) ∧
     Int.ofNat ((4 : Int).toNat % 4) ≠ (4 : Int)) ∧
    decodeV1 (encodeV1Frame { emptyMessage with type := 8 }) emptyMessage =
      (emptyMessage, .error .messageInvalidVersion) := by
  constructor
  · exact (validateType_range_mismatch { emptyMessage with type := 4 } emptyMessage
      (by decide) (by decide) (by decide) (by decide) (by decide) (by decide)
      (by decide) (by decide) (by decide) (by decide) (by decide)
      (by decide)).2.2.2.1 (by decide)
  · exact (validateType_range_mismatch { emptyMessage with type := 8 } emptyMessage
      (by decide) (by decide) (by decide) (by decide) (by decide) (by decide)
      (by decide) (by decide) (by decide) (by decide) (by decide)
      (by decide)).2.2.2.2.2.1 (by decide)

/-- Counterexample for C3 as stated: the 5-byte V0 frame
00 00 00 00 01 carries CRC16 field 0x0000, which does not match
CRC16-MODBUS of the payload 01; Decode returns ErrInvalidRCRC16 but has
already overwritten the destination (its payload is now 01), so the
message is NOT left unchanged. -/
theorem decode_failure_counterexample :
    (decodeV0 [0, 0, 0, 0, 1] emptyMessage).2 = .error .invalidRCRC16 ∧
    (decodeV0 [0, 0, 0, 0, 1] emptyMessage).1 ≠ emptyMessage ∧
    (decodeV0 [0, 0, 0, 0, 1] emptyMessage).1.payload = [1] :=
  ⟨rfl, by decide, rfl⟩

/-- C3 (amended): every decode failure detected before the header
fields are stored (short input, wrong version bits, bad token length,
option parse error, RSUM8 mismatch) returns its specific error with the
destination message unchanged; but the V0 and V2 CRC16 comparison runs
only after all parsed fields have been assigned, so a CRC16 mismatch
yields ErrInvalidRCRC16 with the destination already overwritten by the
frame's fields. -/
theorem decode_failure_partial_output (data : List Nat) (m : Message) :
    (∀ e m1, decodeV1 data m = (m1, .error e) → m1 = m) ∧
    (∀ e m1, decodeV0 data m = (m1, .error e) → e ≠ .invalidRCRC16 → m1 = m) ∧
    (∀ e m1, decodeV2 data m = (m1, .error e) → e ≠ .invalidRCRC16 → m1 = m) ∧
    (∀ m1, decodeV0 data m = (m1, .error .invalidRCRC16) →
      m1.ver = 0 ∧ m1.payload = data.drop 4 ∧ m1.crc16 ≠ CRC16Bytes m1.payload) ∧
    (∀ m1, decodeV2 data m = (m1, .error .invalidRCRC16) →
      m1.ver = 2 ∧ m1.crc16 ≠ CRC16Bytes m1.payload) := by
  refine ⟨?_, ?_, ?_, ?_, ?_⟩
  · intro e m1 h
    unfold decodeV1 at h
    repeat' (first | (simp only [] at h; split at h) | split at h)
    all_goals simp_all
  · intro e m1 h hne
    unfold decodeV0 at h
    repeat' (first | (simp only [] at h; split at h) | split at h)
    all_goals simp_all
  · intro e m1 h hne
    unfold decodeV2 at h
    repeat' (first | (simp only [] at h; split at h) | split at h)
    all_goals simp_all
  · intro m1 h
    unfold decodeV0 at h
    repeat' (first | (simp only [] at h; split at h) | split at h)
    all_goals (try (cases h))
    all_goals simp_all
  · intro m1 h
    unfold decodeV2 at h
    repeat' (first | (simp only [] at h; split at h) | split at h)
    all_goals (try simp_all)
    all_goals (try (rename_i heqX
                    rcases optsUnmarshalGo_err _ _ _ heqX with h' | h' <;> simp_all))
    all_goals (try (cases h))
    all_goals simp_all

/-- Witness for C3 (amended): applying the theorem to the empty input
(truncation leaves the destination untouched) and to the concrete
CRC16-mismatching V0 frame (fields already overwritten). -/
theorem decode_failure_partial_output_witness :
    emptyMessage = emptyMessage ∧
    ((decodeV0 [0, 0, 0, 0, 1] emptyMessage).1.ver = 0 ∧
     (decodeV0 [0, 0, 0, 0, 1] emptyMessage).1.payload = [0, 0, 0, 0, 1].drop 4 ∧
     (decodeV0 [0, 0, 0, 0, 1] emptyMessage).1.crc16 ≠
       CRC16Bytes (decodeV0 [0, 0, 0, 0, 1] emptyMessage).1.payload) :=
  ⟨(decode_failure_partial_output [] emptyMessage).1 .messageTruncated
     emptyMessage rfl,
   (decode_failure_partial_output [0, 0, 0, 0, 1] emptyMessage).2.2.2.1
     (decodeV0 [0, 0, 0, 0, 1] emptyMessage).1 rfl⟩

/-- C5: a V1 frame containing a single option whose ID is not in the
registry, or whose value length lies outside the registered bounds for
its ID, decodes successfully and the option is absent from the
resulting message's option list: the decoder never fails the whole
frame because of an unknown or length-invalid option. -/
theorem unknown_option_skipped (t c i1 i2 delta : Nat) (v : List Nat)
    (ht : t ≤ 3)
    (hd : delta ≤ 65804) (hvl : v.length ≤ 65804)
    (hunk : CoapOptionDefs delta = none ∨
      ∃ d, CoapOptionDefs delta = some d ∧
        (v.length < d.minLen ∨ d.maxLen < v.length)) :
    unmarshalBinary ((64 + 16 * t) :: c :: i1 :: i2 ::
        (optionHeaderBytes delta v.length ++ v)) =
      .ok { token := [], opts := [], code := c, payload := [],
            messageID := Int.ofNat (i1 * 256 + i2), type := Int.ofNat t } := by
  have hskip : parseOptionValue (0 + delta) v = none := by
    unfold parseOptionValue
    rw [Nat.zero_add]
    rcases hunk with h | ⟨d, hd1, hd2⟩
    · rw [h]
    · rw [hd1]
      simp only
      rcases hd2 with h2 | h2 <;>
        rw [if_pos (by simp only [Bool.or_eq_true, decide_eq_true_eq]; omega)]
  have h0 : parseOptsL [] (0 + delta) = .ok ([], []) := by
    rw [parseOptsL.eq_def]
  have hstep := parseOptsL_step 0 delta v.length v [] hd hvl rfl
  rw [h0] at hstep
  rw [hskip] at hstep
  have harg : optionHeaderBytes delta v.length ++ (v ++ []) =
      optionHeaderBytes delta v.length ++ v := by simp
  rw [harg] at hstep
  have hopts : parseOptsL (optionHeaderBytes delta v.length ++ v) 0 =
      .ok ([], []) := hstep.trans rfl
  have hb64 : (64 + 16 * t) / 64 = 1 := by omega
  have hbmod : (64 + 16 * t) % 16 = 0 := by omega
  have hb164 : (64 + 16 * t) / 16 % 4 = t := by omega
  unfold unmarshalBinary
  simp only [hb64, hbmod, hb164, bne_self_eq_false, Bool.false_eq_true, if_false,
    List.drop_zero, List.take_zero]
  rw [if_neg (by omega : ¬ (0:Nat) > 8)]
  rw [if_neg (by omega : ¬ (optionHeaderBytes delta v.length ++ v).length < 0)]
  rw [hopts]

/-- Witness for C5: the unregistered option ID 100 with a two-byte
value is skipped and the frame decodes. -/
theorem unknown_option_skipped_witness :
    unmarshalBinary ((64 + 16 * 0) :: 1 :: 0 :: 0 ::
        (optionHeaderBytes 100 [5, 6].length ++ [5, 6])) =
      .ok { token := [], opts := [], code := 1, payload := [],
            messageID := Int.ofNat (0 * 256 + 0), type := Int.ofNat 0 } :=
  unknown_option_skipped 0 1 0 0 100 [5, 6] (by decide) (by decide) (by decide)
    (Or.inl (by decide))

/-- Counterexample for C6 as stated: byte 0 of the encoded frame is
0x40 (version 01, T=0, TKL=0), not 0x41 as claimed; and the claimed
byte string 41 01 12 34 B1 61 01 62 does not even decode (TKL=1 eats
0xB1 as token, after which the option section is truncated). -/
theorem concrete_v1_get_ab_counterexample :
    marshalBinary { token := [], opts := [(11, .vstr [97]), (11, .vstr [98])],
                    code := 1, payload := [], messageID := 0x1234, type := 0 } ≠
      [0x41, 0x01, 0x12, 0x34, 0xB1, 0x61, 0x01, 0x62] ∧
    (marshalBinary { token := [], opts := [(11, .vstr [97]), (11, .vstr [98])],
                     code := 1, payload := [], messageID := 0x1234, type := 0 }).head? =
      some 0x40 ∧
    unmarshalBinary [0x41, 0x01, 0x12, 0x34, 0xB1, 0x61, 0x01, 0x62] =
      .error .truncated := by
  refine ⟨by decide, rfl, ?_⟩
  have herr : parseOptsL [98] (0 + 6) = .error .truncated := by
    rw [parseOptsL.eq_def]
    rfl
  have hs := parseOptsL_step 0 6 1 [1] [98] (by norm_num) (by norm_num) rfl
  rw [herr] at hs
  have harg : optionHeaderBytes 6 1 ++ ([1] ++ [98]) = [97, 1, 98] := rfl
  rw [harg] at hs
  have heval : parseOptsL [97, 1, 98] 0 = .error .truncated := hs.trans rfl
  have key : unmarshalBinary [0x41, 0x01, 0x12, 0x34, 0xB1, 0x61, 0x01, 0x62] =
      (match parseOptsL [97, 1, 98] 0 with
        | Except.error e => Except.error e
        | Except.ok (opts, payload) =>
          Except.ok { token := [177], opts := opts, code := 1, payload := payload,
                      messageID := Int.ofNat 0x1234, type := Int.ofNat 0 }) := rfl
  rw [key, heval]

/-- C6 (amended): the V1 Confirmable GET of /a/b with MessageID 0x1234,
empty token and no payload encodes to exactly the eight bytes
40 01 12 34 B1 61 01 62 (byte 0 is 0x40 for T=0 and TKL=0; code GET;
MID big-endian; URIPath "a" as delta nibble B length 1, then URIPath
"b" as delta 0 length 1), and those bytes decode back to GET with path
/a/b. -/
theorem concrete_v1_get_ab :
    marshalBinary { token := [], opts := [(11, .vstr [97]), (11, .vstr [98])],
                    code := 1, payload := [], messageID := 0x1234, type := 0 } =
      [0x40, 0x01, 0x12, 0x34, 0xB1, 0x61, 0x01, 0x62] ∧
    unmarshalBinary [0x40, 0x01, 0x12, 0x34, 0xB1, 0x61, 0x01, 0x62] =
      .ok { token := [], opts := [(11, .vstr [97]), (11, .vstr [98])],
            code := 1, payload := [], messageID := 0x1234, type := 0 } ∧
    pathOf { token := [], opts := [(11, OptVal.vstr [97]), (11, OptVal.vstr [98])],
             code := 1, payload := [], messageID := 0x1234, type := 0 } =
      [[97], [98]] := by
  refine ⟨by decide, ?_, by decide⟩
  have h0 : parseOptsL [] (0 + 11 + 0) = .ok ([], []) := by
    rw [parseOptsL.eq_def]
  have hs2 := parseOptsL_step (0 + 11) 0 1 [98] [] (by norm_num) (by norm_num) rfl
  rw [h0] at hs2
  have harg2 : optionHeaderBytes 0 1 ++ ([98] ++ []) = [1, 98] := rfl
  rw [harg2] at hs2
  have heval2 : parseOptsL [1, 98] (0 + 11) = .ok ([(11, OptVal.vstr [98])], []) :=
    hs2.trans rfl
  have hs1 := parseOptsL_step 0 11 1 [97] [1, 98] (by norm_num) (by norm_num) rfl
  rw [heval2] at hs1
  have harg1 : optionHeaderBytes 11 1 ++ ([97] ++ [1, 98]) = [177, 97, 1, 98] := rfl
  rw [harg1] at hs1
  have heval1 : parseOptsL [177, 97, 1, 98] 0 =
      .ok ([(11, OptVal.vstr [97]), (11, OptVal.vstr [98])], []) := hs1.trans rfl
  have key : unmarshalBinary [0x40, 0x01, 0x12, 0x34, 0xB1, 0x61, 0x01, 0x62] =
      (match parseOptsL [177, 97, 1, 98] 0 with
        | Except.error e => Except.error e
        | Except.ok (opts, payload) =>
          Except.ok { token := [], opts := opts, code := 1, payload := payload,
                      messageID := Int.ofNat 0x1234, type := Int.ofNat 0 }) := rfl
  rw [key, heval1]
  rfl
